import Mathlib

/-!
Verification of the ReAgentBuilder control plane (TypeScript) against its
specification.  The development shallowly embeds the relevant parts of the
source:

* JS `Map` objects become association lists (`List (String × α)`) with
  insertion-order-preserving update (`mapSet`), matching JS `Map.set`
  semantics.
* JS `Set` objects become duplicate-free `List String` (`setAdd` dedups on
  insertion, matching JS `Set.add`).
* Async functions are embedded by their sequential value semantics: a
  `Promise`-returning hook becomes `α → Except String β`, where `.error`
  models a thrown/rejected value.  The key-lock and concurrency-slot
  machinery of the hook managers only delays execution and never changes
  the produced value, so it is not part of the value-level embedding
  (concurrency limits that change *whether* something runs, as in the
  breakpoint manager, are embedded explicitly).
* JS numbers used as counters and timestamps become `Nat` / `Int`;
  memory sizes, which are divided, become `ℚ`.
-/

/-! ## Shared data model (src/types) -/

/-- Model of a LangChain `BaseMessage`: an opaque payload.  Only identity of
messages matters for the verified properties. -/
abbrev BaseMessage := String

/-- `ToolCall` from `@langchain/core/messages/tool`: `{id?, name, args}`.
The argument record is kept opaque. -/
structure ToolCall where
  id : Option String
  name : String
  args : String
deriving DecidableEq, Repr

/-- `AgentStateType`: the turn state, an ordered message sequence. -/
structure AgentStateType where
  messages : List BaseMessage
deriving DecidableEq, Repr

/-- `InterceptorOutput = string | ToolResult`.  The engine only ever applies
string conversion to it, so the union is embedded by its string branch. -/
abbrev InterceptorOutput := String

/-- `InterceptorResult`: the tagged union
`{shortCircuit: true, result} | {shortCircuit: false, modifiedInput}`
(src/types/interceptor.ts). -/
inductive InterceptorResult where
  | shortCircuit (result : InterceptorOutput)
  | normal (modifiedInput : ToolCall)
deriving DecidableEq, Repr

/-- The `shortCircuit` discriminant of an `InterceptorResult`. -/
def InterceptorResult.isShortCircuit : InterceptorResult → Bool
  | .shortCircuit _ => true
  | .normal _ => false

/-! ## Association-list model of JS `Map`, dedup-list model of JS `Set` -/

/-- JS `Map.get`, `none` for a missing key. -/
def mapGet (m : List (String × α)) (k : String) : Option α :=
  m.lookup k

/-- JS `Map.has`. -/
def mapHas (m : List (String × α)) (k : String) : Bool :=
  (mapGet m k).isSome

/-- JS `map.get(k) || d` / `map.get(k) ?? d`. -/
def mapGetD (m : List (String × α)) (k : String) (d : α) : α :=
  (mapGet m k).getD d

/-- JS `Map.set`: update in place when the key exists (keeping insertion
order), otherwise append. -/
def mapSet (m : List (String × α)) (k : String) (v : α) : List (String × α) :=
  if mapHas m k then m.map (fun p => if p.1 = k then (k, v) else p)
  else m ++ [(k, v)]

/-- JS `Set.add` on a duplicate-free list. -/
def setAdd (l : List String) (k : String) : List String :=
  if k ∈ l then l else l ++ [k]

/-- JS `String.startsWith`, modelled on the character lists underlying the
strings. -/
def strStartsWith (s p : String) : Bool :=
  p.data.isPrefixOf s.data

theorem lookup_cons_model (pk k' : String) (pv : α) (rest : List (String × α)) :
    List.lookup k' ((pk, pv) :: rest) =
      if k' = pk then some pv else List.lookup k' rest := by
  by_cases h : k' = pk
  · simp only [List.lookup, if_pos h, show (k' == pk) = true by simpa using h]
  · simp only [List.lookup, if_neg h, show (k' == pk) = false by simpa using h]

theorem lookup_mapReplace (m : List (String × α)) (k k' : String) (v : α) :
    List.lookup k' (m.map (fun p => if p.1 = k then (k, v) else p)) =
      if k' = k then (List.lookup k m).map (fun _ => v) else List.lookup k' m := by
  induction m with
  | nil => split <;> simp
  | cons p rest ih =>
    obtain ⟨pk, pv⟩ := p
    simp only [List.map_cons]
    by_cases hpk : pk = k
    · subst hpk
      simp only [show (if ((pk, pv) : String × α).1 = pk then (pk, v) else (pk, pv))
          = (pk, v) by simp, lookup_cons_model, ih]
      by_cases hk' : k' = pk <;> simp [hk', lookup_cons_model, ih]
    · simp only [show (if ((pk, pv) : String × α).1 = k then (k, v) else (pk, pv))
          = (pk, pv) by simp [hpk], lookup_cons_model, ih]
      have hsym : ¬(k = pk) := fun h => hpk h.symm
      by_cases hk' : k' = pk
      · subst hk'
        simp [hpk, show ¬(k' = k) from hpk]
      · by_cases hkk : k' = k <;> simp [hk', hkk, hpk, hsym]

theorem lookup_append_model (m₁ m₂ : List (String × α)) (k : String) :
    List.lookup k (m₁ ++ m₂) =
      (match List.lookup k m₁ with
       | some v => some v
       | none => List.lookup k m₂) := by
  induction m₁ with
  | nil => simp
  | cons p rest ih =>
    obtain ⟨pk, pv⟩ := p
    by_cases hk : k = pk
    · subst hk
      simp [List.lookup]
    · simp [List.lookup, show (k == pk) = false by simpa using hk, ih]

theorem mapGet_mapSet_self (m : List (String × α)) (k : String) (v : α) :
    mapGet (mapSet m k v) k = some v := by
  unfold mapSet mapGet
  split
  · rename_i h
    rw [lookup_mapReplace, if_pos rfl]
    obtain ⟨w, hw⟩ := Option.isSome_iff_exists.mp h
    rw [show List.lookup k m = some w from hw]
    rfl
  · rw [lookup_append_model]
    rename_i h
    have hnone : List.lookup k m = none := by
      unfold mapHas mapGet at h
      cases hc : List.lookup k m with
      | none => rfl
      | some w => exact absurd (by rw [hc]; rfl) h
    rw [hnone]
    simp [List.lookup]

theorem mapGet_mapSet_ne (m : List (String × α)) (k k' : String) (v : α)
    (h : k' ≠ k) : mapGet (mapSet m k v) k' = mapGet m k' := by
  unfold mapSet mapGet
  split
  · rw [lookup_mapReplace, if_neg h]
  · rw [lookup_append_model]
    cases hc : List.lookup k' m with
    | none => simp [List.lookup, show (k' == k) = false by simpa using h]
    | some w => rfl

theorem strStartsWith_append (p t : String) :
    strStartsWith (p ++ t) p = true := by
  unfold strStartsWith
  rw [List.isPrefixOf_iff_prefix]
  exact ⟨t.data, by simp⟩

/-! ## Error Classifier (src/core/error-handler.ts) -/

/-- `ErrorType` enumeration. -/
inductive ErrorType where
  | CONFIGURATION | VALIDATION | RUNTIME | NETWORK
  | TIMEOUT | RESOURCE | PERMISSION | CRITICAL
deriving DecidableEq, Repr

/-- String value of an `ErrorType` member (the enum is string-valued in the
source). -/
def ErrorType.str : ErrorType → String
  | .CONFIGURATION => "CONFIGURATION"
  | .VALIDATION => "VALIDATION"
  | .RUNTIME => "RUNTIME"
  | .NETWORK => "NETWORK"
  | .TIMEOUT => "TIMEOUT"
  | .RESOURCE => "RESOURCE"
  | .PERMISSION => "PERMISSION"
  | .CRITICAL => "CRITICAL"

/-- `ErrorSeverity` enumeration. -/
inductive ErrorSeverity where
  | LOW | MEDIUM | HIGH | CRITICAL
deriving DecidableEq, Repr

/-- `ErrorContext`: a record of optional string-valued fields, embedded as a
key/value list.  JS object spread on re-handling appends the new entries
(later entries win on read, which no verified property depends on). -/
abbrev ErrorContext := List (String × String)

/-- `ReAgentError`: the typed error record.  The `timestamp` field (pure
time metadata, set from the clock at construction) is omitted; call sites
that need the clock receive it as an explicit `now` argument. -/
structure ReAgentError where
  message : String
  type : ErrorType
  severity : ErrorSeverity
  context : ErrorContext
  code : Option String
  retryable : Bool
deriving DecidableEq, Repr

/-- A thrown JS value reaching `handleError`: either an already-typed
`ReAgentError` (the `instanceof` branch) or a plain `Error` with a name and
message. -/
inductive JsError where
  | reagent (e : ReAgentError)
  | plain (name : String) (message : String)
deriving DecidableEq, Repr

/-- `ErrorHandler.createError`. -/
def ErrorHandler.createError (message : String) (type : ErrorType)
    (severity : ErrorSeverity) (context : ErrorContext) (code : Option String)
    (retryable : Bool) : ReAgentError :=
  ⟨message, type, severity, context, code, retryable⟩

/-- The classification step of `ErrorHandler.handleError`: merge the supplied
context into a pre-existing typed error, or wrap a plain error as
RUNTIME/MEDIUM, non-retryable. -/
def ErrorHandler.classify (err : JsError) (context : ErrorContext) : ReAgentError :=
  match err with
  | .reagent e =>
      { e with context := e.context ++ context }
  | .plain name msg =>
      ⟨msg, .RUNTIME, .MEDIUM, context ++ [("originalError", name)], none, false⟩

/-- Mutable maps of the `ErrorHandler` singleton: per-key repeat counts and
last-seen timestamps. -/
structure ErrorHandlerState where
  errorCounts : List (String × Nat)
  lastErrors : List (String × Int)
deriving DecidableEq, Repr

/-- `maxSimilarErrors` (the dedup repeat threshold). -/
def ErrorHandler.maxSimilarErrors : Nat := 10

/-- `similarErrorWindow` (the rolling dedup window, ms). -/
def ErrorHandler.similarErrorWindow : Int := 60000

/-- The dedup key `${error.type}:${error.message}`. -/
def ErrorHandler.errorKey (e : ReAgentError) : String :=
  e.type.str ++ ":" ++ e.message

/-- `ErrorHandler.shouldSuppressDuplicateError`, with the clock passed in as
`now`.  Returns the suppression verdict together with the updated maps.
Note that on suppression the method returns before touching either map. -/
def ErrorHandler.shouldSuppressDuplicateError (st : ErrorHandlerState)
    (e : ReAgentError) (now : Int) : Bool × ErrorHandlerState :=
  let key := ErrorHandler.errorKey e
  let lastTime := mapGetD st.lastErrors key 0
  let count := mapGetD st.errorCounts key 0
  if now - lastTime < ErrorHandler.similarErrorWindow ∧
      count ≥ ErrorHandler.maxSimilarErrors then
    (true, st)
  else
    let st1 : ErrorHandlerState :=
      ⟨mapSet st.errorCounts key (count + 1), mapSet st.lastErrors key now⟩
    let st2 :=
      if now - lastTime > ErrorHandler.similarErrorWindow then
        { st1 with errorCounts := mapSet st1.errorCounts key 1 }
      else st1
    (false, st2)

/-- Outcome of one `handleError` call: the classified error, the updated
dedup maps, and whether the occurrence was logged and forwarded to the
telemetry counters (`false` exactly when the duplicate was suppressed). -/
structure HandleOutcome where
  error : ReAgentError
  state : ErrorHandlerState
  forwarded : Bool
deriving DecidableEq, Repr

/-- `ErrorHandler.handleError`. -/
def ErrorHandler.handleError (st : ErrorHandlerState) (err : JsError)
    (context : ErrorContext) (now : Int) : HandleOutcome :=
  let e := ErrorHandler.classify err context
  let (suppressed, st') := ErrorHandler.shouldSuppressDuplicateError st e now
  if suppressed then ⟨e, st', false⟩ else ⟨e, st', true⟩

/-- Repeated `handleError` calls with the same thrown value, one per listed
timestamp; collects the per-call `forwarded` flags. -/
def ErrorHandler.handleErrorSeq (st : ErrorHandlerState) (err : JsError)
    (context : ErrorContext) : List Int → List Bool × ErrorHandlerState
  | [] => ([], st)
  | t :: ts =>
      let h := ErrorHandler.handleError st err context t
      let (fs, st') := ErrorHandler.handleErrorSeq h.state err context ts
      (h.forwarded :: fs, st')

/-- Result of `ErrorHandler.retry`: either the operation's value, the
classified error thrown on exhaustion / on a non-retryable failure, or the
crash on the non-null assertion `lastError!` after a loop that never ran
(only reachable with `maxRetries = 0`). -/
inductive RetryResult (α : Type) where
  | ok (value : α)
  | thrown (e : ReAgentError)
  | nullLastError
deriving DecidableEq, Repr

/-- Observable trace of one `ErrorHandler.retry` run: its outcome, how many
times the operation was invoked, and the sequence of waits (ms) performed
between attempts, in order. -/
structure RetryTrace (α : Type) where
  outcome : RetryResult α
  calls : Nat
  delays : List Nat
deriving DecidableEq, Repr

/-- Body of the `for (attempt = 0; attempt < maxRetries; attempt++)` loop of
`ErrorHandler.retry`.  `fuel` is the number of remaining iterations
(`maxRetries - attempt`), which makes the recursion structural. -/
def ErrorHandler.retryAux (st : ErrorHandlerState) (fn : Nat → Except JsError α)
    (context : ErrorContext) (now : Int) (maxRetries backoffMultiplier : Nat) :
    Nat → Nat → Nat → RetryTrace α × ErrorHandlerState
  | _, 0, _ => (⟨.nullLastError, 0, []⟩, st)
  | attempt, fuel + 1, currentDelay =>
    match fn attempt with
    | .ok a => (⟨.ok a, 1, []⟩, st)
    | .error err =>
      let h := ErrorHandler.handleError st err
        (context ++ [("attempt", toString (attempt + 1)),
                     ("maxRetries", toString maxRetries)]) now
      if attempt = maxRetries - 1 ∨ ¬h.error.retryable then
        (⟨.thrown h.error, 1, []⟩, h.state)
      else
        let (t, st') := ErrorHandler.retryAux h.state fn context now maxRetries
          backoffMultiplier (attempt + 1) fuel (currentDelay * backoffMultiplier)
        (⟨t.outcome, t.calls + 1, currentDelay :: t.delays⟩, st')

/-- `ErrorHandler.retry(fn, context, maxRetries, delayMs, backoffMultiplier)`
with the clock passed in as `now`. -/
def ErrorHandler.retry (st : ErrorHandlerState) (fn : Nat → Except JsError α)
    (context : ErrorContext) (now : Int)
    (maxRetries delayMs backoffMultiplier : Nat) :
    RetryTrace α × ErrorHandlerState :=
  ErrorHandler.retryAux st fn context now maxRetries backoffMultiplier
    0 maxRetries delayMs

/-! ## Retry helper: supporting lemmas -/

/-- The context with which `retry` re-handles the failure of a given attempt
(0-based `attempt`). -/
def ErrorHandler.retryContext (context : ErrorContext)
    (attempt maxRetries : Nat) : ErrorContext :=
  context ++ [("attempt", toString (attempt + 1)),
              ("maxRetries", toString maxRetries)]

theorem handleError_error (st : ErrorHandlerState) (err : JsError)
    (context : ErrorContext) (now : Int) :
    (ErrorHandler.handleError st err context now).error =
      ErrorHandler.classify err context := by
  unfold ErrorHandler.handleError
  rcases h : ErrorHandler.shouldSuppressDuplicateError st
    (ErrorHandler.classify err context) now with ⟨b, st'⟩
  simp only [h]
  cases b <;> rfl

theorem handleError_state (st : ErrorHandlerState) (err : JsError)
    (context : ErrorContext) (now : Int) :
    (ErrorHandler.handleError st err context now).state =
      (ErrorHandler.shouldSuppressDuplicateError st
        (ErrorHandler.classify err context) now).2 := by
  unfold ErrorHandler.handleError
  rcases h : ErrorHandler.shouldSuppressDuplicateError st
    (ErrorHandler.classify err context) now with ⟨b, st'⟩
  simp only [h]
  cases b <;> rfl

theorem retryAux_step_last (st : ErrorHandlerState) (fn : Nat → Except JsError α)
    (context : ErrorContext) (now : Int)
    (maxRetries mult attempt fuel cur : Nat) (err : JsError)
    (hfn : fn attempt = .error err)
    (hstop : attempt = maxRetries - 1 ∨
      ¬(ErrorHandler.classify err
          (ErrorHandler.retryContext context attempt maxRetries)).retryable) :
    ErrorHandler.retryAux st fn context now maxRetries mult
        attempt (fuel + 1) cur =
      (⟨.thrown (ErrorHandler.classify err
          (ErrorHandler.retryContext context attempt maxRetries)), 1, []⟩,
       (ErrorHandler.handleError st err
          (ErrorHandler.retryContext context attempt maxRetries) now).state) := by
  unfold ErrorHandler.retryAux
  rw [hfn]
  simp only [ErrorHandler.retryContext] at *
  rw [if_pos (by rw [handleError_error]; exact hstop), handleError_error]

theorem retryAux_step_retry (st : ErrorHandlerState) (fn : Nat → Except JsError α)
    (context : ErrorContext) (now : Int)
    (maxRetries mult attempt fuel cur : Nat) (err : JsError)
    (hfn : fn attempt = .error err)
    (hlast : ¬(attempt = maxRetries - 1))
    (hre : (ErrorHandler.classify err
        (ErrorHandler.retryContext context attempt maxRetries)).retryable) :
    ErrorHandler.retryAux st fn context now maxRetries mult
        attempt (fuel + 1) cur =
      (let inner := ErrorHandler.retryAux
          (ErrorHandler.handleError st err
            (ErrorHandler.retryContext context attempt maxRetries) now).state
          fn context now maxRetries mult (attempt + 1) fuel (cur * mult)
       (⟨inner.1.outcome, inner.1.calls + 1, cur :: inner.1.delays⟩, inner.2)) := by
  conv_lhs => unfold ErrorHandler.retryAux
  rw [hfn]
  simp only [ErrorHandler.retryContext] at *
  rw [if_neg (by rw [handleError_error]; push_neg; exact ⟨hlast, hre⟩)]

/-- The list of waits `[c, c*m, c*m*m, ...]` of length `n`. -/
def geomDelays (c m : Nat) : Nat → List Nat
  | 0 => []
  | n + 1 => c :: geomDelays (c * m) m n

theorem retryAux_delays_geom
    (fn : Nat → Except JsError α) (context : ErrorContext) (now : Int)
    (maxRetries mult : Nat) :
    ∀ fuel attempt cur st,
      ∃ n, (ErrorHandler.retryAux st fn context now maxRetries mult
            attempt fuel cur).1.delays = geomDelays cur mult n := by
  intro fuel
  induction fuel with
  | zero => intro attempt cur st; exact ⟨0, rfl⟩
  | succ fuel ih =>
    intro attempt cur st
    unfold ErrorHandler.retryAux
    cases hfn : fn attempt with
    | ok a => exact ⟨0, rfl⟩
    | error err =>
      simp only []
      split
      · exact ⟨0, rfl⟩
      · obtain ⟨n, hn⟩ := ih (attempt + 1) (cur * mult)
          ((ErrorHandler.handleError st err
            (context ++ [("attempt", toString (attempt + 1)),
                         ("maxRetries", toString maxRetries)]) now).state)
        exact ⟨n + 1, by simpa [geomDelays] using congrArg (cur :: ·) hn⟩

theorem geomDelays_ratio (m : Nat) :
    ∀ (n c i : Nat) (h : i + 1 < (geomDelays c m n).length),
      (geomDelays c m n).get ⟨i + 1, h⟩ =
        (geomDelays c m n).get ⟨i, Nat.lt_of_succ_lt h⟩ * m := by
  intro n
  induction n with
  | zero => intro c i h; simp [geomDelays] at h
  | succ n ih =>
    intro c i h
    cases i with
    | zero =>
      cases n with
      | zero => simp [geomDelays] at h
      | succ n => simp [geomDelays]
    | succ i =>
      simp only [geomDelays, List.length_cons] at h
      have := ih (c * m) i (Nat.lt_of_succ_lt_succ h)
      simpa [geomDelays] using this

theorem classify_reagent_retryable (e : ReAgentError) (c : ErrorContext) :
    (ErrorHandler.classify (.reagent e) c).retryable = e.retryable := rfl

theorem retryAux_allRetryableErrors {α : Type}
    (fn : Nat → Except JsError α) (er : Nat → ReAgentError)
    (hfn : ∀ i, fn i = .error (.reagent (er i)))
    (hre : ∀ i, (er i).retryable = true)
    (context : ErrorContext) (now : Int) (maxRetries mult : Nat) :
    ∀ fuel attempt cur st, fuel = maxRetries - attempt → attempt < maxRetries →
      (ErrorHandler.retryAux st fn context now maxRetries mult
          attempt fuel cur).1 =
        ⟨.thrown (ErrorHandler.classify (.reagent (er (maxRetries - 1)))
            (ErrorHandler.retryContext context (maxRetries - 1) maxRetries)),
         fuel, geomDelays cur mult (fuel - 1)⟩ := by
  intro fuel
  induction fuel with
  | zero =>
    intro attempt cur st hfu hlt
    omega
  | succ fuel ih =>
    intro attempt cur st hfu hlt
    by_cases hstop : attempt = maxRetries - 1
    · have hfu0 : fuel = 0 := by omega
      subst hfu0
      rw [retryAux_step_last st fn context now maxRetries mult attempt 0 cur
        (.reagent (er attempt)) (hfn attempt) (Or.inl hstop)]
      rw [hstop]
      rfl
    · rw [retryAux_step_retry st fn context now maxRetries mult attempt fuel cur
        (.reagent (er attempt)) (hfn attempt) hstop
        (by rw [classify_reagent_retryable]; exact hre attempt)]
      have hlt' : attempt + 1 < maxRetries := by omega
      have hih := ih (attempt + 1) (cur * mult)
        ((ErrorHandler.handleError st (.reagent (er attempt))
          (ErrorHandler.retryContext context attempt maxRetries) now).state)
        (by omega) hlt'
      simp only [hih]
      have hfpos : 1 ≤ fuel := by omega
      have : fuel + 1 - 1 = (fuel - 1) + 1 := by omega
      rw [this, geomDelays]

/-- C5: the retry helper invoked on an always-retryably-failing operation
with maxRetries = 3 calls the operation exactly 3 times and then throws the
classified error of the last attempt; a non-retryable classified error is
thrown immediately after a single attempt; and successive waits between
attempts grow by the backoff multiplier. -/
theorem c5_retry_classified_backoff {α : Type}
    (st : ErrorHandlerState) (context : ErrorContext) (now : Int)
    (delayMs backoffMultiplier : Nat) :
    (∀ (fn : Nat → Except JsError α) (er : Nat → ReAgentError),
      (∀ i, fn i = .error (.reagent (er i))) →
      (∀ i, (er i).retryable = true) →
      (ErrorHandler.retry st fn context now 3 delayMs backoffMultiplier).1 =
        ⟨.thrown (ErrorHandler.classify (.reagent (er 2))
            (ErrorHandler.retryContext context 2 3)), 3,
         [delayMs, delayMs * backoffMultiplier]⟩) ∧
    (∀ (fn : Nat → Except JsError α) (err : JsError) (maxRetries : Nat),
      0 < maxRetries → fn 0 = .error err →
      (ErrorHandler.classify err
          (ErrorHandler.retryContext context 0 maxRetries)).retryable = false →
      (ErrorHandler.retry st fn context now maxRetries delayMs
          backoffMultiplier).1 =
        ⟨.thrown (ErrorHandler.classify err
            (ErrorHandler.retryContext context 0 maxRetries)), 1, []⟩) ∧
    (∀ (fn : Nat → Except JsError α) (maxRetries i : Nat)
      (h : i + 1 < (ErrorHandler.retry st fn context now maxRetries delayMs
          backoffMultiplier).1.delays.length),
      (ErrorHandler.retry st fn context now maxRetries delayMs
          backoffMultiplier).1.delays.get ⟨i + 1, h⟩ =
        (ErrorHandler.retry st fn context now maxRetries delayMs
          backoffMultiplier).1.delays.get ⟨i, Nat.lt_of_succ_lt h⟩ *
          backoffMultiplier) := by
  refine ⟨?_, ?_, ?_⟩
  · intro fn er hfn hre
    have h := retryAux_allRetryableErrors fn er hfn hre context now 3
      backoffMultiplier 3 0 delayMs st rfl (by omega)
    unfold ErrorHandler.retry
    rw [h]
    rfl
  · intro fn err maxRetries hpos hfn hnre
    unfold ErrorHandler.retry
    cases maxRetries with
    | zero => omega
    | succ k =>
      rw [retryAux_step_last st fn context now (k + 1) backoffMultiplier 0 k
        delayMs err hfn (Or.inr (by rw [hnre]; simp))]
  · intro fn maxRetries i h
    obtain ⟨n, hn⟩ := retryAux_delays_geom fn context now maxRetries
      backoffMultiplier maxRetries 0 delayMs st
    revert h
    unfold ErrorHandler.retry
    rw [hn]
    intro h
    exact geomDelays_ratio backoffMultiplier n delayMs i h

/-- An always-thrown retryable error used to witness the retry contract. -/
def sampleRetryErr : ReAgentError :=
  ⟨"connection reset", .NETWORK, .MEDIUM, [], none, true⟩

/-- A non-retryable error used to witness the retry contract. -/
def sampleNonRetryErr : ReAgentError :=
  ⟨"bad input", .VALIDATION, .HIGH, [], none, false⟩

theorem c5_retry_classified_backoff_witness :
    ((ErrorHandler.retry ⟨[], []⟩
        (fun _ => (Except.error (JsError.reagent sampleRetryErr) : Except JsError Nat))
        [] 0 3 7 2).1 =
      ⟨.thrown (ErrorHandler.classify (.reagent sampleRetryErr)
          (ErrorHandler.retryContext [] 2 3)), 3, [7, 14]⟩) ∧
    ((ErrorHandler.retry ⟨[], []⟩
        (fun _ => (Except.error (JsError.reagent sampleNonRetryErr) : Except JsError Nat))
        [] 0 3 7 2).1 =
      ⟨.thrown (ErrorHandler.classify (.reagent sampleNonRetryErr)
          (ErrorHandler.retryContext [] 0 3)), 1, []⟩) ∧
    ((ErrorHandler.retry ⟨[], []⟩
        (fun _ => (Except.error (JsError.reagent sampleRetryErr) : Except JsError Nat))
        [] 0 3 7 2).1.delays.get ⟨1, by decide⟩ =
      (ErrorHandler.retry ⟨[], []⟩
        (fun _ => (Except.error (JsError.reagent sampleRetryErr) : Except JsError Nat))
        [] 0 3 7 2).1.delays.get ⟨0, by decide⟩ * 2) := by
  refine ⟨?_, ?_, ?_⟩
  · exact (c5_retry_classified_backoff ⟨[], []⟩ [] 0 7 2).1 _
      (fun _ => sampleRetryErr) (fun _ => rfl) (fun _ => rfl)
  · exact (c5_retry_classified_backoff ⟨[], []⟩ [] 0 7 2).2.1 _
      (.reagent sampleNonRetryErr) 3 (by omega) rfl rfl
  · exact (c5_retry_classified_backoff ⟨[], []⟩ [] 0 7 2).2.2 _ 3 0 (by decide)

/-! ## Error deduplication: supporting lemmas -/

theorem mapGetD_single (k : String) (v d : α) : mapGetD [(k, v)] k d = v := by
  simp [mapGetD, mapGet, lookup_cons_model]

theorem mapSet_single (k : String) (v w : α) : mapSet [(k, v)] k w = [(k, w)] := by
  simp [mapSet, mapHas, mapGet, lookup_cons_model]

theorem mapSet_nil (k : String) (v : α) : mapSet [] k v = [(k, v)] := rfl

/-- A dedup-map state that tracks a single error key. -/
def ErrorHandler.stateWith (key : String) (count : Nat) (lastTime : Int) :
    ErrorHandlerState :=
  ⟨[(key, count)], [(key, lastTime)]⟩

theorem handleError_eq (st : ErrorHandlerState) (err : JsError)
    (ctx : ErrorContext) (now : Int) :
    ErrorHandler.handleError st err ctx now =
      ⟨ErrorHandler.classify err ctx,
       (ErrorHandler.shouldSuppressDuplicateError st
         (ErrorHandler.classify err ctx) now).2,
       !(ErrorHandler.shouldSuppressDuplicateError st
         (ErrorHandler.classify err ctx) now).1⟩ := by
  unfold ErrorHandler.handleError
  rcases h : ErrorHandler.shouldSuppressDuplicateError st
    (ErrorHandler.classify err ctx) now with ⟨b, st2⟩
  simp only [h]
  cases b <;> rfl

theorem shouldSuppress_empty (e : ReAgentError) (now : Int) :
    ErrorHandler.shouldSuppressDuplicateError ⟨[], []⟩ e now =
      (false,
       ErrorHandler.stateWith (ErrorHandler.errorKey e) 1 now) := by
  unfold ErrorHandler.shouldSuppressDuplicateError
  rw [if_neg (by
    intro hcon
    have h2 := hcon.2
    simp [mapGetD, mapGet, List.lookup, ErrorHandler.maxSimilarErrors] at h2)]
  simp only [mapGetD, mapGet, List.lookup, Option.getD]
  split <;> simp [ErrorHandler.stateWith, mapSet_nil, mapSet_single]

theorem shouldSuppress_stateWith (e : ReAgentError) (now t : Int) (c : Nat)
    (hw : now - t < ErrorHandler.similarErrorWindow) :
    ErrorHandler.shouldSuppressDuplicateError
        (ErrorHandler.stateWith (ErrorHandler.errorKey e) c t) e now =
      (if c ≥ ErrorHandler.maxSimilarErrors then
        (true, ErrorHandler.stateWith (ErrorHandler.errorKey e) c t)
      else
        (false,
         ErrorHandler.stateWith (ErrorHandler.errorKey e) (c + 1) now)) := by
  unfold ErrorHandler.shouldSuppressDuplicateError
  simp only [ErrorHandler.stateWith, mapGetD_single]
  by_cases hc : c ≥ ErrorHandler.maxSimilarErrors
  · rw [if_pos ⟨hw, hc⟩, if_pos hc]
  · rw [if_neg (by intro hcon; exact hc hcon.2), if_neg hc]
    rw [if_neg (by omega)]
    simp only [mapSet_single]

theorem handleError_first (err : JsError) (ctx : ErrorContext) (now : Int) :
    ErrorHandler.handleError ⟨[], []⟩ err ctx now =
      ⟨ErrorHandler.classify err ctx,
       ErrorHandler.stateWith
         (ErrorHandler.errorKey (ErrorHandler.classify err ctx)) 1 now,
       true⟩ := by
  rw [handleError_eq, shouldSuppress_empty]
  rfl

theorem handleError_step (err : JsError) (ctx : ErrorContext) (now t : Int)
    (c : Nat) (hw : now - t < ErrorHandler.similarErrorWindow) :
    ErrorHandler.handleError
        (ErrorHandler.stateWith
          (ErrorHandler.errorKey (ErrorHandler.classify err ctx)) c t)
        err ctx now =
      (if c ≥ ErrorHandler.maxSimilarErrors then
        ⟨ErrorHandler.classify err ctx,
         ErrorHandler.stateWith
           (ErrorHandler.errorKey (ErrorHandler.classify err ctx)) c t, false⟩
      else
        ⟨ErrorHandler.classify err ctx,
         ErrorHandler.stateWith
           (ErrorHandler.errorKey (ErrorHandler.classify err ctx)) (c + 1) now,
         true⟩) := by
  rw [handleError_eq, shouldSuppress_stateWith (ErrorHandler.classify err ctx)
    now t c hw]
  by_cases hc : c ≥ ErrorHandler.maxSimilarErrors
  · rw [if_pos hc, if_pos hc]
    rfl
  · rw [if_neg hc, if_neg hc]
    rfl

/-- Expected forwarded-flags for a run of identical errors starting at
repeat count `c` (all within the dedup window). -/
def expFlags (c : Nat) : List Int → List Bool
  | [] => []
  | _ :: ts =>
    if c ≥ ErrorHandler.maxSimilarErrors then false :: expFlags c ts
    else true :: expFlags (c + 1) ts

/-- Expected final repeat count for such a run. -/
def expCount (c : Nat) : List Int → Nat
  | [] => c
  | _ :: ts =>
    if c ≥ ErrorHandler.maxSimilarErrors then expCount c ts
    else expCount (c + 1) ts

/-- Expected final last-seen timestamp for such a run. -/
def expLast (t : Int) (c : Nat) : List Int → Int
  | [] => t
  | u :: ts =>
    if c ≥ ErrorHandler.maxSimilarErrors then expLast t c ts
    else expLast u (c + 1) ts

theorem handleErrorSeq_spec (err : JsError) (ctx : ErrorContext) :
    ∀ (ts : List Int) (c : Nat) (t : Int),
      List.Pairwise (· ≤ ·) (t :: ts) →
      (∀ u ∈ ts, u - t < ErrorHandler.similarErrorWindow) →
      ErrorHandler.handleErrorSeq
          (ErrorHandler.stateWith
            (ErrorHandler.errorKey (ErrorHandler.classify err ctx)) c t)
          err ctx ts =
        (expFlags c ts,
         ErrorHandler.stateWith
           (ErrorHandler.errorKey (ErrorHandler.classify err ctx))
           (expCount c ts) (expLast t c ts)) := by
  intro ts
  induction ts with
  | nil => intro c t _ _; rfl
  | cons u rest ih =>
    intro c t hpw hwin
    obtain ⟨hle, hpw2⟩ := List.pairwise_cons.mp hpw
    have htu : t ≤ u := hle u (List.mem_cons_self u rest)
    unfold ErrorHandler.handleErrorSeq
    rw [handleError_step err ctx u t c (hwin u (List.mem_cons_self u rest))]
    by_cases hc : c ≥ ErrorHandler.maxSimilarErrors
    · rw [if_pos hc]
      simp only []
      have hrec := ih c t
        (List.pairwise_cons.mpr
          ⟨fun y hy => hle y (List.mem_cons_of_mem u hy),
           (List.pairwise_cons.mp hpw2).2⟩)
        (fun v hv => hwin v (List.mem_cons_of_mem u hv))
      rw [hrec]
      simp [expFlags, expCount, expLast, hc]
    · rw [if_neg hc]
      simp only []
      have hrec := ih (c + 1) u hpw2
        (fun v hv => by
          have h1 := (List.pairwise_cons.mp hpw2).1 v hv
          have h2 := hwin v (List.mem_cons_of_mem u hv)
          omega)
      rw [hrec]
      simp [expFlags, expCount, expLast, hc]

theorem expFlags_eval :
    ∀ (ts : List Int) (c : Nat), c ≤ ErrorHandler.maxSimilarErrors →
      expFlags c ts =
        List.replicate (min (ErrorHandler.maxSimilarErrors - c) ts.length) true
          ++ List.replicate (ts.length - (ErrorHandler.maxSimilarErrors - c))
              false := by
  intro ts
  induction ts with
  | nil => intro c _; simp [expFlags]
  | cons u rest ih =>
    intro c hc
    by_cases hge : c ≥ ErrorHandler.maxSimilarErrors
    · have hceq : c = ErrorHandler.maxSimilarErrors := le_antisymm hc hge
      rw [expFlags, if_pos hge, ih c hc]
      rw [show ErrorHandler.maxSimilarErrors - c = 0 by omega]
      simp [List.replicate_succ]
    · rw [expFlags, if_neg hge, ih (c + 1) (by omega)]
      rw [show min (ErrorHandler.maxSimilarErrors - c) (u :: rest).length
          = min (ErrorHandler.maxSimilarErrors - (c + 1)) rest.length + 1 by
        simp only [List.length_cons]; omega]
      rw [show (u :: rest).length - (ErrorHandler.maxSimilarErrors - c)
          = rest.length - (ErrorHandler.maxSimilarErrors - (c + 1)) by
        simp only [List.length_cons]; omega]
      simp [List.replicate_succ]

theorem expCount_eval :
    ∀ (ts : List Int) (c : Nat), c ≤ ErrorHandler.maxSimilarErrors →
      expCount c ts = min ErrorHandler.maxSimilarErrors (c + ts.length) := by
  intro ts
  induction ts with
  | nil => intro c hc; simp [expCount]; omega
  | cons u rest ih =>
    intro c hc
    by_cases hge : c ≥ ErrorHandler.maxSimilarErrors
    · rw [expCount, if_pos hge, ih c hc]
      simp only [List.length_cons]
      omega
    · rw [expCount, if_neg hge, ih (c + 1) (by omega)]
      simp only [List.length_cons]
      omega

/-- C6 (amended): 11 `handleError` calls with the same `(kind, message)`
pair within one dedup window (threshold 10) forward exactly the first 10
occurrences to logging/telemetry and suppress exactly the 11th; a
suppressed occurrence is NOT counted — the stored repeat count stays at the
threshold (10), and the maps are left untouched while suppressing. -/
theorem c6_dedup_eleven_calls (er : ReAgentError) (ctx : ErrorContext)
    (t0 : Int) (ts : List Int) (hlen : ts.length = 10)
    (hpw : List.Pairwise (· ≤ ·) (t0 :: ts))
    (hwin : ∀ u ∈ ts, u - t0 < ErrorHandler.similarErrorWindow) :
    (ErrorHandler.handleErrorSeq ⟨[], []⟩ (.reagent er) ctx (t0 :: ts)).1 =
        List.replicate 10 true ++ [false] ∧
      mapGetD (ErrorHandler.handleErrorSeq ⟨[], []⟩ (.reagent er) ctx
          (t0 :: ts)).2.errorCounts
        (ErrorHandler.errorKey (ErrorHandler.classify (.reagent er) ctx)) 0
        = 10 := by
  have hstep : ErrorHandler.handleErrorSeq ⟨[], []⟩ (.reagent er) ctx (t0 :: ts)
      = ((ErrorHandler.handleError ⟨[], []⟩ (.reagent er) ctx t0).forwarded ::
          (ErrorHandler.handleErrorSeq
            (ErrorHandler.handleError ⟨[], []⟩ (.reagent er) ctx t0).state
            (.reagent er) ctx ts).1,
         (ErrorHandler.handleErrorSeq
            (ErrorHandler.handleError ⟨[], []⟩ (.reagent er) ctx t0).state
            (.reagent er) ctx ts).2) := by
    conv_lhs => unfold ErrorHandler.handleErrorSeq
  rw [hstep, handleError_first]
  have hseq := handleErrorSeq_spec (.reagent er) ctx ts 1 t0 hpw hwin
  simp only [hseq]
  have hflags := expFlags_eval ts 1
    (by simp [ErrorHandler.maxSimilarErrors])
  have hcount := expCount_eval ts 1
    (by simp [ErrorHandler.maxSimilarErrors])
  rw [hlen] at hflags hcount
  simp only [ErrorHandler.maxSimilarErrors] at hflags hcount
  constructor
  · rw [hflags]
    norm_num
    rw [show (10 : Nat) = 9 + 1 by norm_num, List.replicate_succ]
    rfl
  · rw [hcount]
    simp [ErrorHandler.stateWith, mapGetD_single]

/-- The repeated error used in the C6 counterexample and witness. -/
def dupErr : ReAgentError := ⟨"boom", .RUNTIME, .MEDIUM, [], none, false⟩

/-- C6 counterexample: 11 identical errors at timestamps 0..10 (all inside
one 60s window, threshold 10).  The 11th occurrence is suppressed but NOT
counted: the stored repeat count for the key after all 11 calls is 10, not
11 — `shouldSuppressDuplicateError` returns before updating the maps.  This
falsifies the claim that suppressed occurrences are still counted. -/
theorem c6_suppressed_not_counted_counterexample :
    (ErrorHandler.handleErrorSeq ⟨[], []⟩ (.reagent dupErr) []
        [0, 1, 2, 3, 4, 5, 6, 7, 8, 9, 10]).1 =
      List.replicate 10 true ++ [false] ∧
    mapGetD (ErrorHandler.handleErrorSeq ⟨[], []⟩ (.reagent dupErr) []
        [0, 1, 2, 3, 4, 5, 6, 7, 8, 9, 10]).2.errorCounts "RUNTIME:boom" 0
      = 10 ∧
    ¬(mapGetD (ErrorHandler.handleErrorSeq ⟨[], []⟩ (.reagent dupErr) []
        [0, 1, 2, 3, 4, 5, 6, 7, 8, 9, 10]).2.errorCounts "RUNTIME:boom" 0
      = 11) := by
  refine ⟨by decide, by decide, by decide⟩

theorem c6_dedup_eleven_calls_witness :
    (ErrorHandler.handleErrorSeq ⟨[], []⟩ (.reagent dupErr) []
        [0, 10, 20, 30, 40, 50, 60, 70, 80, 90, 100]).1 =
      List.replicate 10 true ++ [false] ∧
    mapGetD (ErrorHandler.handleErrorSeq ⟨[], []⟩ (.reagent dupErr) []
        [0, 10, 20, 30, 40, 50, 60, 70, 80, 90, 100]).2.errorCounts
      (ErrorHandler.errorKey (ErrorHandler.classify (.reagent dupErr) [])) 0
      = 10 :=
  c6_dedup_eleven_calls dupErr [] 0
    [10, 20, 30, 40, 50, 60, 70, 80, 90, 100] (by decide)
    (by decide) (by decide)

/-! ## Telemetry Recorder: memory snapshots (src/core/performance.ts) -/

/-- One entry of `metrics.memorySnapshots`: capture time and the
`heapUsed` figure of `process.memoryUsage()` (the only field the trend
classifier reads). -/
structure MemorySnapshot where
  timestamp : Int
  heapUsed : ℚ
deriving DecidableEq, Repr

/-- `MAX_SNAPSHOTS`: capacity of the snapshot ring buffer. -/
def PerformanceMonitor.MAX_SNAPSHOTS : Nat := 100

/-- `PerformanceMonitor.captureMemorySnapshot`: push the new sample, then
drop the oldest one (`Array.shift`) if the capacity is exceeded. -/
def PerformanceMonitor.captureMemorySnapshot
    (snapshots : List MemorySnapshot) (s : MemorySnapshot) :
    List MemorySnapshot :=
  let pushed := snapshots ++ [s]
  if pushed.length > PerformanceMonitor.MAX_SNAPSHOTS then pushed.tail
  else pushed

/-- `PerformanceMonitor.getMemoryTrend`: with fewer than 2 samples report
insufficient data; otherwise compare the first and last of the most recent
5 samples (`slice(-5)`) and classify the percentage change. -/
def PerformanceMonitor.getMemoryTrend (snapshots : List MemorySnapshot) :
    String :=
  if snapshots.length < 2 then "insufficient_data"
  else
    let recent := snapshots.drop (snapshots.length - 5)
    let first := (recent.headD ⟨0, 0⟩).heapUsed
    let last := (recent.getLastD ⟨0, 0⟩).heapUsed
    let change := ((last - first) / first) * 100
    if change > 5 then "increasing"
    else if change < -5 then "decreasing"
    else "stable"

/-- C8: the trend classifier returns insufficient data below 2 samples;
otherwise, writing `first`/`last` for the first and last of the most recent
5 samples (with a positive `first`, as heap sizes are), it reports
increasing exactly when the relative change exceeds +5% (`last > first *
21/20`), decreasing exactly when it is below -5% (`last < first * 19/20`),
and stable otherwise; and the snapshot buffer holds at most 100 samples,
evicting the oldest first. -/
theorem c8_memory_trend_and_ring_buffer :
    (∀ snapshots : List MemorySnapshot, snapshots.length < 2 →
      PerformanceMonitor.getMemoryTrend snapshots = "insufficient_data") ∧
    (∀ snapshots : List MemorySnapshot, 2 ≤ snapshots.length →
      ∀ first last : ℚ,
      first = ((snapshots.drop (snapshots.length - 5)).headD ⟨0, 0⟩).heapUsed →
      last = ((snapshots.drop (snapshots.length - 5)).getLastD ⟨0, 0⟩).heapUsed →
      0 < first →
      ((PerformanceMonitor.getMemoryTrend snapshots = "increasing" ↔
          last > first * (21 / 20)) ∧
       (PerformanceMonitor.getMemoryTrend snapshots = "decreasing" ↔
          last < first * (19 / 20)) ∧
       (PerformanceMonitor.getMemoryTrend snapshots = "stable" ↔
          (first * (19 / 20) ≤ last ∧ last ≤ first * (21 / 20))))) ∧
    (∀ (snapshots : List MemorySnapshot) (s : MemorySnapshot),
      snapshots.length ≤ PerformanceMonitor.MAX_SNAPSHOTS →
      (PerformanceMonitor.captureMemorySnapshot snapshots s).length ≤
          PerformanceMonitor.MAX_SNAPSHOTS ∧
        (snapshots.length = PerformanceMonitor.MAX_SNAPSHOTS →
          PerformanceMonitor.captureMemorySnapshot snapshots s =
            snapshots.tail ++ [s]) ∧
        (snapshots.length < PerformanceMonitor.MAX_SNAPSHOTS →
          PerformanceMonitor.captureMemorySnapshot snapshots s =
            snapshots ++ [s])) := by
  refine ⟨?_, ?_, ?_⟩
  · intro snapshots h
    unfold PerformanceMonitor.getMemoryTrend
    rw [if_pos h]
  · intro snapshots h2 first last hf hl hpos
    unfold PerformanceMonitor.getMemoryTrend
    rw [if_neg (by omega)]
    simp only [← hf, ← hl]
    have hchange : ((last - first) / first) * 100 = (last - first) * 100 / first := by
      ring
    have hinc : (((last - first) / first) * 100 > 5) ↔ last > first * (21 / 20) := by
      rw [hchange, gt_iff_lt, lt_div_iff₀ hpos]
      constructor <;> intro hlt <;> nlinarith
    have hdec : (((last - first) / first) * 100 < -5) ↔ last < first * (19 / 20) := by
      rw [hchange, div_lt_iff₀ hpos]
      constructor <;> intro hlt <;> nlinarith
    refine ⟨?_, ?_, ?_⟩
    · constructor
      · intro hs
        by_contra hnot
        rw [if_neg (by rw [hinc]; exact hnot)] at hs
        split at hs <;> simp at hs
      · intro hgt
        rw [if_pos (by rw [hinc]; exact hgt)]
    · constructor
      · intro hs
        by_contra hnot
        by_cases hi : ((last - first) / first) * 100 > 5
        · rw [if_pos hi] at hs; simp at hs
        · rw [if_neg hi, if_neg (by rw [hdec]; exact hnot)] at hs
          simp at hs
      · intro hlt
        have hni : ¬(((last - first) / first) * 100 > 5) := by
          rw [hinc]
          intro hgt
          nlinarith
        rw [if_neg hni, if_pos (by rw [hdec]; exact hlt)]
    · constructor
      · intro hs
        by_cases hi : ((last - first) / first) * 100 > 5
        · rw [if_pos hi] at hs; simp at hs
        · by_cases hd : ((last - first) / first) * 100 < -5
          · rw [if_neg hi, if_pos hd] at hs; simp at hs
          · rw [hinc] at hi
            rw [hdec] at hd
            constructor <;> [exact not_lt.mp hd; exact not_lt.mp hi]
      · intro ⟨hge, hle⟩
        rw [if_neg (by rw [hinc]; exact not_lt.mpr hle),
          if_neg (by rw [hdec]; exact not_lt.mpr hge)]
  · intro snapshots s hle
    unfold PerformanceMonitor.captureMemorySnapshot
    by_cases hfull : snapshots.length = PerformanceMonitor.MAX_SNAPSHOTS
    · rw [if_pos (by simp [hfull])]
      have htail : (snapshots ++ [s]).tail = snapshots.tail ++ [s] := by
        cases snapshots with
        | nil => simp [PerformanceMonitor.MAX_SNAPSHOTS] at hfull
        | cons a rest => simp
      refine ⟨?_, fun _ => htail, fun hlt => by omega⟩
      rw [htail]
      simp only [List.length_append, List.length_tail]
      cases snapshots with
      | nil => simp [PerformanceMonitor.MAX_SNAPSHOTS] at hfull
      | cons a rest =>
        simp only [List.length_cons] at hfull
        simp [show rest.length = PerformanceMonitor.MAX_SNAPSHOTS - 1 by omega]
        omega
    · rw [if_neg (by simp; omega)]
      refine ⟨by simp; omega, fun heq => absurd heq hfull, fun _ => rfl⟩

theorem c8_memory_trend_and_ring_buffer_witness :
    PerformanceMonitor.getMemoryTrend [] = "insufficient_data" ∧
    PerformanceMonitor.getMemoryTrend [⟨0, 100⟩, ⟨1, 110⟩] = "increasing" ∧
    PerformanceMonitor.getMemoryTrend [⟨0, 100⟩, ⟨1, 90⟩] = "decreasing" ∧
    PerformanceMonitor.getMemoryTrend [⟨0, 100⟩, ⟨1, 102⟩] = "stable" ∧
    PerformanceMonitor.captureMemorySnapshot [⟨0, 100⟩] ⟨1, 101⟩ =
      [⟨0, 100⟩, ⟨1, 101⟩] := by
  refine ⟨?_, ?_, ?_, ?_, ?_⟩
  · exact c8_memory_trend_and_ring_buffer.1 [] (by decide)
  · exact ((c8_memory_trend_and_ring_buffer.2.1 [⟨0, 100⟩, ⟨1, 110⟩] (by decide)
      100 110 (by norm_num) (by norm_num) (by norm_num)).1).mpr (by norm_num)
  · exact ((c8_memory_trend_and_ring_buffer.2.1 [⟨0, 100⟩, ⟨1, 90⟩] (by decide)
      100 90 (by norm_num) (by norm_num) (by norm_num)).2.1).mpr (by norm_num)
  · exact ((c8_memory_trend_and_ring_buffer.2.1 [⟨0, 100⟩, ⟨1, 102⟩] (by decide)
      100 102 (by norm_num) (by norm_num) (by norm_num)).2.2).mpr
      (by norm_num)
  · exact (c8_memory_trend_and_ring_buffer.2.2 [⟨0, 100⟩] ⟨1, 101⟩
      (by simp [PerformanceMonitor.MAX_SNAPSHOTS])).2.2
      (by simp [PerformanceMonitor.MAX_SNAPSHOTS])

/-! ## Breakpoint Pipeline (src/agent/breakpoint-manager.ts) -/

/-- Mutable collections of `BreakpointManager`: the key-indexed execution
queue (a `Map` whose values are pending promises — only its key set is
observable) and the set of concurrently running breakpoint keys. -/
structure BreakpointManagerState where
  executionQueue : List String
  concurrentBreakpoints : List String
deriving DecidableEq, Repr

/-- How `enqueueBreakpoint` disposed of an invocation. -/
inductive BreakpointOutcome where
  | skippedAtLimit
  | skippedDuplicate
  | executed
deriving DecidableEq, Repr

/-- Value-level run of `BreakpointManager.enqueueBreakpoint` for one key:
the outcome, the state while the breakpoint function is running (`during`),
and the state after both `finally` blocks ran (`after`).  The hook body and
its 2s timeout race are observation-only (`executeBreakpoint` catches every
failure), so they do not appear in the state. -/
structure BreakpointRun where
  outcome : BreakpointOutcome
  during : BreakpointManagerState
  after : BreakpointManagerState
deriving DecidableEq, Repr

/-- `BreakpointManager.enqueueBreakpoint`: skip when the concurrent set is
at the limit; skip duplicates already queued under the same key; otherwise
run `executeBreakpoint` (which adds the key to the concurrent set and
removes it in `finally`) while the queue holds the key until settlement. -/
def BreakpointManager.enqueueBreakpoint (st : BreakpointManagerState)
    (maxConcurrentBreakpoints : Nat) (key : String) : BreakpointRun :=
  if st.concurrentBreakpoints.length ≥ maxConcurrentBreakpoints then
    ⟨.skippedAtLimit, st, st⟩
  else if key ∈ st.executionQueue then
    ⟨.skippedDuplicate, st, st⟩
  else
    let during : BreakpointManagerState :=
      ⟨setAdd st.executionQueue key, setAdd st.concurrentBreakpoints key⟩
    let after : BreakpointManagerState :=
      ⟨during.executionQueue.erase key,
       during.concurrentBreakpoints.erase key⟩
    ⟨.executed, during, after⟩

theorem setAdd_length (l : List String) (k : String) :
    (setAdd l k).length ≤ l.length + 1 := by
  unfold setAdd
  split
  · omega
  · simp

/-- C4: a breakpoint invocation arriving while the active-breakpoint count
is at the configured limit is skipped entirely — nothing is queued, the
hook is never executed, the state is unchanged, and no exception is raised
(the embedding is a total function); consequently, starting from any state
within the limit, the active count never exceeds the limit, neither while a
breakpoint runs nor after it settles. -/
theorem c4_breakpoint_limit_skip (st : BreakpointManagerState)
    (limit : Nat) (key : String) :
    (st.concurrentBreakpoints.length = limit →
      BreakpointManager.enqueueBreakpoint st limit key =
        ⟨.skippedAtLimit, st, st⟩) ∧
    (st.concurrentBreakpoints.length ≤ limit →
      (BreakpointManager.enqueueBreakpoint st limit key).during.concurrentBreakpoints.length ≤ limit ∧
      (BreakpointManager.enqueueBreakpoint st limit key).after.concurrentBreakpoints.length ≤ limit) := by
  constructor
  · intro heq
    unfold BreakpointManager.enqueueBreakpoint
    rw [if_pos (by omega)]
  · intro hle
    unfold BreakpointManager.enqueueBreakpoint
    by_cases hfull : st.concurrentBreakpoints.length ≥ limit
    · rw [if_pos hfull]
      exact ⟨hle, hle⟩
    · rw [if_neg hfull]
      by_cases hdup : key ∈ st.executionQueue
      · rw [if_pos hdup]
        exact ⟨hle, hle⟩
      · rw [if_neg hdup]
        constructor
        · have := setAdd_length st.concurrentBreakpoints key
          simp only []
          omega
        · have h1 := setAdd_length st.concurrentBreakpoints key
          have h2 := List.length_erase_le key
            (setAdd st.concurrentBreakpoints key)
          simp only []
          omega

theorem c4_breakpoint_limit_skip_witness :
    BreakpointManager.enqueueBreakpoint ⟨["a", "b"], ["a", "b"]⟩ 2 "c" =
      ⟨.skippedAtLimit, ⟨["a", "b"], ["a", "b"]⟩, ⟨["a", "b"], ["a", "b"]⟩⟩ ∧
    (BreakpointManager.enqueueBreakpoint ⟨["a"], ["a"]⟩ 2 "c").during.concurrentBreakpoints.length ≤ 2 :=
  ⟨(c4_breakpoint_limit_skip ⟨["a", "b"], ["a", "b"]⟩ 2 "c").1 (by decide),
   ((c4_breakpoint_limit_skip ⟨["a"], ["a"]⟩ 2 "c").2 (by decide)).1⟩

/-! ## Interceptor Pipeline (src/agent/interceptor-manager.ts) -/

/-- `InterceptorConfig.core`: hooks may throw, modelled by `Except`. -/
structure CoreInterceptors where
  beforeModelInvoke :
    Option (List BaseMessage → AgentStateType → Except String (List BaseMessage))
  afterAgentComplete : Option (AgentStateType → Except String AgentStateType)

/-- `InterceptorConfig.global`. -/
structure GlobalInterceptors where
  beforeToolCall : Option (ToolCall → AgentStateType → Except String InterceptorResult)
  afterToolCall :
    Option (InterceptorOutput → ToolCall → AgentStateType →
      Except String InterceptorOutput)

/-- One entry of `InterceptorConfig.toolSpecific`. -/
structure ToolSpecificInterceptors where
  beforeToolCall : Option (ToolCall → AgentStateType → Except String InterceptorResult)
  afterToolCall :
    Option (InterceptorOutput → ToolCall → AgentStateType →
      Except String InterceptorOutput)

/-- `InterceptorConfig` (src/types/interceptor.ts). -/
structure InterceptorConfig where
  enabled : Bool
  core : Option CoreInterceptors
  global : Option GlobalInterceptors
  toolSpecific : Option (List (String × ToolSpecificInterceptors))

/-- Precomputed `hasToolSpecific` flag
(`!!(config.toolSpecific && config.toolSpecific.size > 0)`). -/
def InterceptorConfig.hasToolSpecific (cfg : InterceptorConfig) : Bool :=
  match cfg.toolSpecific with
  | some m => decide (m.length > 0)
  | none => false

/-- `InterceptorManager.interceptBeforeModelInvoke`.  The second component
reports whether the failure was routed through the Error Classifier: this
hook point is run through `errorHandler.wrapAsync`, whose `handleError`
call classifies the failure before the local `.catch` returns the original
messages. -/
def InterceptorManager.interceptBeforeModelInvoke (cfg : InterceptorConfig)
    (messages : List BaseMessage) (state : AgentStateType) :
    List BaseMessage × Bool :=
  match cfg.enabled, cfg.core.bind (fun c => c.beforeModelInvoke) with
  | true, some hook =>
    (match hook messages state with
     | .ok r => (r, false)
     | .error _ => (messages, true))
  | _, _ => (messages, false)

/-- `InterceptorManager.interceptAfterAgentComplete`: plain try/catch, the
failure is only logged (never classified); the fallback is the input. -/
def InterceptorManager.interceptAfterAgentComplete (cfg : InterceptorConfig)
    (finalState : AgentStateType) : AgentStateType × Bool :=
  match cfg.enabled, cfg.core.bind (fun c => c.afterAgentComplete) with
  | true, some hook =>
    (match hook finalState with
     | .ok r => (r, false)
     | .error _ => (finalState, false))
  | _, _ => (finalState, false)

/-- `InterceptorManager.interceptBeforeToolCall` (global before-stage):
try/catch with a pass-through fallback; failures only logged. -/
def InterceptorManager.interceptBeforeToolCall (cfg : InterceptorConfig)
    (toolCall : ToolCall) (state : AgentStateType) :
    InterceptorResult × Bool :=
  match cfg.enabled, cfg.global.bind (fun g => g.beforeToolCall) with
  | true, some hook =>
    (match hook toolCall state with
     | .ok r => (r, false)
     | .error _ => (.normal toolCall, false))
  | _, _ => (.normal toolCall, false)

/-- `InterceptorManager.interceptAfterToolCall` (global after-stage):
try/catch with a pass-through fallback; failures only logged. -/
def InterceptorManager.interceptAfterToolCall (cfg : InterceptorConfig)
    (result : InterceptorOutput) (toolCall : ToolCall)
    (state : AgentStateType) : InterceptorOutput × Bool :=
  match cfg.enabled, cfg.global.bind (fun g => g.afterToolCall) with
  | true, some hook =>
    (match hook result toolCall state with
     | .ok r => (r, false)
     | .error _ => (result, false))
  | _, _ => (result, false)

/-- `InterceptorManager.interceptSpecificToolCall`: look up the hook by the
call's tool name; try/catch with pass-through fallback; failures only
logged. -/
def InterceptorManager.interceptSpecificToolCall (cfg : InterceptorConfig)
    (toolCall : ToolCall) (state : AgentStateType) :
    InterceptorResult × Bool :=
  match cfg.enabled, cfg.hasToolSpecific with
  | true, true =>
    (match (cfg.toolSpecific.bind (fun m => mapGet m toolCall.name)).bind
        (fun t => t.beforeToolCall) with
     | some hook =>
       (match hook toolCall state with
        | .ok r => (r, false)
        | .error _ => (.normal toolCall, false))
     | none => (.normal toolCall, false))
  | _, _ => (.normal toolCall, false)

/-- `InterceptorManager.interceptSpecificToolResult`: look up the hook by
the call's tool name; try/catch with pass-through fallback; failures only
logged. -/
def InterceptorManager.interceptSpecificToolResult (cfg : InterceptorConfig)
    (result : InterceptorOutput) (toolCall : ToolCall)
    (state : AgentStateType) : InterceptorOutput × Bool :=
  match cfg.enabled, cfg.hasToolSpecific with
  | true, true =>
    (match (cfg.toolSpecific.bind (fun m => mapGet m toolCall.name)).bind
        (fun t => t.afterToolCall) with
     | some hook =>
       (match hook result toolCall state with
        | .ok r => (r, false)
        | .error _ => (result, false))
     | none => (result, false))
  | _, _ => (result, false)

/-- C3 (amended): at every interceptor hook point a throwing hook makes the
pipeline return the original, unmodified input to its caller and never
propagates the exception (the embedding is total); the failure is routed
through the Error Classifier only at the before-model-invoke hook point
(via `errorHandler.wrapAsync`) — at the other five hook points it is only
logged. -/
theorem c3_interceptor_fail_open (cfg : InterceptorConfig)
    (state : AgentStateType) :
    (∀ messages hook e, cfg.enabled = true →
      cfg.core.bind (fun c => c.beforeModelInvoke) = some hook →
      hook messages state = .error e →
      InterceptorManager.interceptBeforeModelInvoke cfg messages state =
        (messages, true)) ∧
    (∀ finalState hook e, cfg.enabled = true →
      cfg.core.bind (fun c => c.afterAgentComplete) = some hook →
      hook finalState = .error e →
      InterceptorManager.interceptAfterAgentComplete cfg finalState =
        (finalState, false)) ∧
    (∀ toolCall hook e, cfg.enabled = true →
      cfg.global.bind (fun g => g.beforeToolCall) = some hook →
      hook toolCall state = .error e →
      InterceptorManager.interceptBeforeToolCall cfg toolCall state =
        (.normal toolCall, false)) ∧
    (∀ result toolCall hook e, cfg.enabled = true →
      cfg.global.bind (fun g => g.afterToolCall) = some hook →
      hook result toolCall state = .error e →
      InterceptorManager.interceptAfterToolCall cfg result toolCall state =
        (result, false)) ∧
    (∀ toolCall hook e, cfg.enabled = true → cfg.hasToolSpecific = true →
      (cfg.toolSpecific.bind (fun m => mapGet m toolCall.name)).bind
        (fun t => t.beforeToolCall) = some hook →
      hook toolCall state = .error e →
      InterceptorManager.interceptSpecificToolCall cfg toolCall state =
        (.normal toolCall, false)) ∧
    (∀ result toolCall hook e, cfg.enabled = true →
      cfg.hasToolSpecific = true →
      (cfg.toolSpecific.bind (fun m => mapGet m toolCall.name)).bind
        (fun t => t.afterToolCall) = some hook →
      hook result toolCall state = .error e →
      InterceptorManager.interceptSpecificToolResult cfg result toolCall
        state = (result, false)) := by
  refine ⟨?_, ?_, ?_, ?_, ?_, ?_⟩
  · intro messages hook e hen hhook hthrow
    unfold InterceptorManager.interceptBeforeModelInvoke
    simp only [hen, hhook, hthrow]
  · intro finalState hook e hen hhook hthrow
    unfold InterceptorManager.interceptAfterAgentComplete
    simp only [hen, hhook, hthrow]
  · intro toolCall hook e hen hhook hthrow
    unfold InterceptorManager.interceptBeforeToolCall
    simp only [hen, hhook, hthrow]
  · intro result toolCall hook e hen hhook hthrow
    unfold InterceptorManager.interceptAfterToolCall
    simp only [hen, hhook, hthrow]
  · intro toolCall hook e hen hspec hhook hthrow
    unfold InterceptorManager.interceptSpecificToolCall
    simp only [hen, hspec, hhook, hthrow]
  · intro result toolCall hook e hen hspec hhook hthrow
    unfold InterceptorManager.interceptSpecificToolResult
    simp only [hen, hspec, hhook, hthrow]

/-- An interceptor configuration whose every hook throws. -/
def throwingAllCfg : InterceptorConfig :=
  ⟨true,
   some ⟨some (fun _ _ => .error "hook failed"),
         some (fun _ => .error "hook failed")⟩,
   some ⟨some (fun _ _ => .error "hook failed"),
         some (fun _ _ _ => .error "hook failed")⟩,
   some [("calc", ⟨some (fun _ _ => .error "hook failed"),
                   some (fun _ _ _ => .error "hook failed")⟩)]⟩

/-- A sample tool call naming the tool "calc". -/
def calcCall : ToolCall := ⟨some "call-1", "calc", "{}"⟩

/-- C3 counterexample: with a throwing global after-tool-call hook, the
pipeline returns the original result with the classifier-routed flag
`false` — the failure is only logged, contradicting the claim that every
hook point routes failures through the Error Classifier. -/
theorem c3_after_hook_not_classified_counterexample :
    InterceptorManager.interceptAfterToolCall throwingAllCfg "res" calcCall
        ⟨[]⟩ = ("res", false) ∧
    ¬((InterceptorManager.interceptAfterToolCall throwingAllCfg "res"
        calcCall ⟨[]⟩).2 = true) := by
  exact ⟨rfl, by decide⟩

theorem c3_interceptor_fail_open_witness :
    InterceptorManager.interceptBeforeModelInvoke throwingAllCfg ["m"] ⟨[]⟩ =
      (["m"], true) ∧
    InterceptorManager.interceptAfterAgentComplete throwingAllCfg ⟨["f"]⟩ =
      (⟨["f"]⟩, false) ∧
    InterceptorManager.interceptBeforeToolCall throwingAllCfg calcCall ⟨[]⟩ =
      (.normal calcCall, false) ∧
    InterceptorManager.interceptAfterToolCall throwingAllCfg "res" calcCall
      ⟨[]⟩ = ("res", false) ∧
    InterceptorManager.interceptSpecificToolCall throwingAllCfg calcCall
      ⟨[]⟩ = (.normal calcCall, false) ∧
    InterceptorManager.interceptSpecificToolResult throwingAllCfg "res"
      calcCall ⟨[]⟩ = ("res", false) := by
  refine ⟨?_, ?_, ?_, ?_, ?_, ?_⟩
  · exact (c3_interceptor_fail_open throwingAllCfg ⟨[]⟩).1 ["m"]
      (fun _ _ => .error "hook failed") "hook failed" rfl rfl rfl
  · exact (c3_interceptor_fail_open throwingAllCfg ⟨[]⟩).2.1 ⟨["f"]⟩
      (fun _ => .error "hook failed") "hook failed" rfl rfl rfl
  · exact (c3_interceptor_fail_open throwingAllCfg ⟨[]⟩).2.2.1 calcCall
      (fun _ _ => .error "hook failed") "hook failed" rfl rfl rfl
  · exact (c3_interceptor_fail_open throwingAllCfg ⟨[]⟩).2.2.2.1 "res"
      calcCall (fun _ _ _ => .error "hook failed") "hook failed" rfl rfl rfl
  · exact (c3_interceptor_fail_open throwingAllCfg ⟨[]⟩).2.2.2.2.1 calcCall
      (fun _ _ => .error "hook failed") "hook failed" rfl rfl rfl rfl
  · exact (c3_interceptor_fail_open throwingAllCfg ⟨[]⟩).2.2.2.2.2 "res"
      calcCall (fun _ _ _ => .error "hook failed") "hook failed" rfl rfl rfl
      rfl

/-! ## Tool Execution Engine (ReAgentBuilder.executeTools, src/agent) -/

/-- A registered tool: unique name plus `invoke(args)`, which may throw. -/
structure StructuredTool where
  name : String
  invoke : String → Except String InterceptorOutput

/-- The mutable `toolMap : Map<string, StructuredTool>`. -/
abbrev ToolMap := List (String × StructuredTool)

/-- One per-call result message (`ToolMessage {content, tool_call_id}`). -/
structure ToolMessage where
  content : String
  tool_call_id : String
deriving DecidableEq, Repr

/-- Deterministic stand-in for `perfUtils.generateId` (the source appends a
process-wide counter and a clock reading, both pure identity metadata). -/
def PerformanceUtils.generateId (p : String) : String := p ++ "-id"

/-- Events of one tool call's pipeline, in execution order, each recording
the input it was invoked with.  Interceptor/breakpoint events are emitted
at the pipeline stage call sites of `executeTools`. -/
inductive StageEvent where
  | globalBeforeInterceptorCall (input : ToolCall)
  | globalBeforeBreakpointCall (input : ToolCall)
  | specificBeforeInterceptorCall (input : ToolCall)
  | specificBeforeBreakpointCall (input : ToolCall)
  | toolInvocation (name : String) (args : String)
  | specificAfterInterceptorCall (result : InterceptorOutput) (input : ToolCall)
  | specificAfterBreakpointCall (result : InterceptorOutput) (input : ToolCall)
  | globalAfterInterceptorCall (result : InterceptorOutput) (input : ToolCall)
  | globalAfterBreakpointCall (result : InterceptorOutput) (input : ToolCall)
deriving DecidableEq, Repr

/-- Is the event the tool-specific before-interceptor stage? -/
def StageEvent.isSpecificBeforeIntercept : StageEvent → Bool
  | .specificBeforeInterceptorCall _ => true
  | _ => false

/-- The `finalInterceptResult` local of the per-call pipeline: the global
before-interceptor's result, refined by the tool-specific before
interceptor only when the global stage did not short-circuit (which then
receives the global stage's `modifiedInput`). -/
def ReAgentBuilder.finalInterceptResult (icfg : InterceptorConfig)
    (toolCall : ToolCall) (state : AgentStateType) : InterceptorResult :=
  match (InterceptorManager.interceptBeforeToolCall icfg toolCall state).1 with
  | .shortCircuit r => .shortCircuit r
  | .normal m => (InterceptorManager.interceptSpecificToolCall icfg m state).1

/-- The `result` local of the per-call pipeline: a short-circuiting
interceptor's supplied result, or the real tool invoked with the (possibly
rewritten) arguments.  The tool is looked up under the call's original
name with a non-null assertion; a missing tool is the thrown lookup
failure. -/
def ReAgentBuilder.resolvedResult (icfg : InterceptorConfig)
    (toolMap : ToolMap) (toolCall : ToolCall) (state : AgentStateType) :
    Except String InterceptorOutput :=
  match ReAgentBuilder.finalInterceptResult icfg toolCall state with
  | .shortCircuit r => .ok r
  | .normal m =>
    match mapGet toolMap toolCall.name with
    | some tool => tool.invoke m.args
    | none => .error "toolMap.get returned undefined"

/-- The stage events preceding result resolution for one call. -/
def ReAgentBuilder.preEvents (icfg : InterceptorConfig) (toolCall : ToolCall)
    (state : AgentStateType) : List StageEvent :=
  [StageEvent.globalBeforeInterceptorCall toolCall,
   StageEvent.globalBeforeBreakpointCall toolCall]
    ++ (match (InterceptorManager.interceptBeforeToolCall icfg toolCall
          state).1 with
        | .normal m => [StageEvent.specificBeforeInterceptorCall m]
        | .shortCircuit _ => [])
    ++ [StageEvent.specificBeforeBreakpointCall toolCall]

/-- The tool-invocation event, present exactly when no interceptor
short-circuited and the tool was found. -/
def ReAgentBuilder.invokeEvents (icfg : InterceptorConfig)
    (toolMap : ToolMap) (toolCall : ToolCall) (state : AgentStateType) :
    List StageEvent :=
  match ReAgentBuilder.finalInterceptResult icfg toolCall state,
      mapGet toolMap toolCall.name with
  | .normal m, some _ => [StageEvent.toolInvocation toolCall.name m.args]
  | _, _ => []

/-- One valid call's strictly sequential pipeline (the body of the task
mapped over `validToolCalls`): global-before interceptor → global-before
breakpoint → tool-specific-before interceptor (only without a global
short-circuit) → tool-specific-before breakpoint → resolve the result →
tool-specific-after interceptor → tool-specific-after breakpoint →
global-after interceptor → global-after breakpoint → result message.  A
failure while resolving is caught and becomes the per-call error message;
the after-stages are then skipped.  Returns the settled `ToolMessage` and
the pipeline's stage events. -/
def ReAgentBuilder.executeToolCall (icfg : InterceptorConfig)
    (toolMap : ToolMap) (state : AgentStateType) (index : Nat)
    (toolCall : ToolCall) : ToolMessage × List StageEvent :=
  let executionId := toolCall.id.getD
    (PerformanceUtils.generateId ("exec-" ++ toString index))
  match ReAgentBuilder.resolvedResult icfg toolMap toolCall state with
  | .error errMsg =>
    (⟨"Error executing tool " ++ toolCall.name ++ ": " ++ errMsg,
      executionId⟩,
     ReAgentBuilder.preEvents icfg toolCall state
       ++ ReAgentBuilder.invokeEvents icfg toolMap toolCall state)
  | .ok result =>
    let specificProcessedResult :=
      (InterceptorManager.interceptSpecificToolResult icfg result toolCall
        state).1
    let finalResult :=
      (InterceptorManager.interceptAfterToolCall icfg
        specificProcessedResult toolCall state).1
    (⟨finalResult, executionId⟩,
     ReAgentBuilder.preEvents icfg toolCall state
       ++ ReAgentBuilder.invokeEvents icfg toolMap toolCall state
       ++ [StageEvent.specificAfterInterceptorCall result toolCall,
           StageEvent.specificAfterBreakpointCall specificProcessedResult
             toolCall,
           StageEvent.globalAfterInterceptorCall specificProcessedResult
             toolCall,
           StageEvent.globalAfterBreakpointCall finalResult toolCall])

/-- The calls whose names are in the registry, in batch order. -/
def ReAgentBuilder.validToolCalls (toolMap : ToolMap)
    (toolCalls : List ToolCall) : List ToolCall :=
  toolCalls.filter (fun tc => mapHas toolMap tc.name)

/-- The calls whose names are absent from the registry, in batch order. -/
def ReAgentBuilder.invalidToolCalls (toolMap : ToolMap)
    (toolCalls : List ToolCall) : List ToolCall :=
  toolCalls.filter (fun tc => !(mapHas toolMap tc.name))

/-- The fixed-format error message for one unknown call
(`Unknown tool: <name>`). -/
def ReAgentBuilder.unknownToolMessage (index : Nat) (tc : ToolCall) :
    ToolMessage :=
  ⟨"Unknown tool: " ++ tc.name,
   tc.id.getD (PerformanceUtils.generateId ("invalid-" ++ toString index))⟩

/-- The error messages produced for the unknown calls of a batch. -/
def ReAgentBuilder.unknownMessages (toolMap : ToolMap)
    (toolCalls : List ToolCall) : List ToolMessage :=
  (ReAgentBuilder.invalidToolCalls toolMap toolCalls).enum.map
    (fun p => ReAgentBuilder.unknownToolMessage p.1 p.2)

/-- The settled per-call messages of the valid calls of a batch. -/
def ReAgentBuilder.pipelineResults (icfg : InterceptorConfig)
    (toolMap : ToolMap) (state : AgentStateType)
    (toolCalls : List ToolCall) : List ToolMessage :=
  (ReAgentBuilder.validToolCalls toolMap toolCalls).enum.map
    (fun p => (ReAgentBuilder.executeToolCall icfg toolMap state p.1 p.2).1)

/-- The `errorMessages` tally of `executeTools`: unknown-call messages
(filtered by the `Unknown tool:` content test) plus settled messages whose
content starts with `Error executing tool` (all settlements are fulfilled
in the embedding, so the rejected-task branch contributes nothing). -/
def ReAgentBuilder.errorMessagesOf (icfg : InterceptorConfig)
    (toolMap : ToolMap) (state : AgentStateType)
    (toolCalls : List ToolCall) : List ToolMessage :=
  (ReAgentBuilder.unknownMessages toolMap toolCalls).filter
      (fun msg => strStartsWith msg.content "Unknown tool:")
    ++ (ReAgentBuilder.pipelineResults icfg toolMap state toolCalls).filter
      (fun msg => strStartsWith msg.content "Error executing tool")

/-- The systemic-problem test of `executeTools`
(`errorMessages.length > Math.floor(totalTools / 2)`); logging the warning
is its only effect. -/
def ReAgentBuilder.systemicWarningCheck (errorCount totalTools : Nat) :
    Bool :=
  decide (totalTools / 2 < errorCount)

/-- What `executeTools` returns (plus the observable per-call traces): one
result message per input call, the systemic-warning flag, and for each
valid call its pipeline's stage events. -/
structure ExecuteToolsResult where
  messages : List ToolMessage
  systemicWarning : Bool
  traces : List (ToolCall × List StageEvent)

/-- `ReAgentBuilder.executeTools` on one batch: no calls → nothing to do;
all calls unknown → the unknown-call error messages are returned
immediately (before the settlement bookkeeping and the systemic-problem
check); otherwise the unknown-call messages are joined by every valid
call's settled message and the systemic-problem warning is evaluated over
the whole batch. -/
def ReAgentBuilder.executeTools (icfg : InterceptorConfig)
    (toolMap : ToolMap) (state : AgentStateType)
    (toolCalls : List ToolCall) : ExecuteToolsResult :=
  if toolCalls.isEmpty then ⟨[], false, []⟩
  else if (ReAgentBuilder.validToolCalls toolMap toolCalls).isEmpty then
    ⟨ReAgentBuilder.unknownMessages toolMap toolCalls, false, []⟩
  else
    ⟨ReAgentBuilder.unknownMessages toolMap toolCalls
       ++ ReAgentBuilder.pipelineResults icfg toolMap state toolCalls,
     ReAgentBuilder.systemicWarningCheck
       (ReAgentBuilder.errorMessagesOf icfg toolMap state toolCalls).length
       toolCalls.length,
     (ReAgentBuilder.validToolCalls toolMap toolCalls).enum.map
       (fun p => (p.2, (ReAgentBuilder.executeToolCall icfg toolMap state
         p.1 p.2).2))⟩

theorem countP_invokeEvents_specific (icfg : InterceptorConfig)
    (toolMap : ToolMap) (tc : ToolCall) (state : AgentStateType) :
    (ReAgentBuilder.invokeEvents icfg toolMap tc state).countP
      StageEvent.isSpecificBeforeIntercept = 0 := by
  unfold ReAgentBuilder.invokeEvents
  cases ReAgentBuilder.finalInterceptResult icfg tc state <;>
    cases mapGet toolMap tc.name <;>
    simp [List.countP_cons, StageEvent.isSpecificBeforeIntercept]

theorem countP_preEvents_specific (icfg : InterceptorConfig) (tc : ToolCall)
    (state : AgentStateType) :
    (ReAgentBuilder.preEvents icfg tc state).countP
        StageEvent.isSpecificBeforeIntercept =
      if (InterceptorManager.interceptBeforeToolCall icfg tc
          state).1.isShortCircuit then 0 else 1 := by
  unfold ReAgentBuilder.preEvents
  cases h : (InterceptorManager.interceptBeforeToolCall icfg tc state).1 <;>
    simp [InterceptorResult.isShortCircuit, List.countP_append,
      List.countP_cons, StageEvent.isSpecificBeforeIntercept]

/-- C1: in the per-call pipeline, the tool-specific-before interceptor
stage runs exactly when the global-before interceptor did not
short-circuit (receiving the global stage's possibly-rewritten call); and
the resolved result is the short-circuiting stage's supplied result when
either before-stage short-circuited, otherwise the value of invoking the
real tool with the (possibly rewritten) arguments.  On successful
resolution, the call's result message carries that result as processed by
the after-stages. -/
theorem c1_per_call_pipeline (icfg : InterceptorConfig) (toolMap : ToolMap)
    (state : AgentStateType) (index : Nat) (tc : ToolCall) :
    ((ReAgentBuilder.executeToolCall icfg toolMap state index tc).2.countP
        StageEvent.isSpecificBeforeIntercept =
      if (InterceptorManager.interceptBeforeToolCall icfg tc
          state).1.isShortCircuit then 0 else 1) ∧
    (∀ r, (InterceptorManager.interceptBeforeToolCall icfg tc state).1 =
        .shortCircuit r →
      ReAgentBuilder.finalInterceptResult icfg tc state = .shortCircuit r) ∧
    (∀ m, (InterceptorManager.interceptBeforeToolCall icfg tc state).1 =
        .normal m →
      ReAgentBuilder.finalInterceptResult icfg tc state =
        (InterceptorManager.interceptSpecificToolCall icfg m state).1) ∧
    (∀ r, ReAgentBuilder.finalInterceptResult icfg tc state =
        .shortCircuit r →
      ReAgentBuilder.resolvedResult icfg toolMap tc state = .ok r) ∧
    (∀ m tool, ReAgentBuilder.finalInterceptResult icfg tc state =
        .normal m →
      mapGet toolMap tc.name = some tool →
      ReAgentBuilder.resolvedResult icfg toolMap tc state =
        tool.invoke m.args) ∧
    (∀ r, ReAgentBuilder.resolvedResult icfg toolMap tc state = .ok r →
      (ReAgentBuilder.executeToolCall icfg toolMap state index tc).1.content
        = (InterceptorManager.interceptAfterToolCall icfg
            (InterceptorManager.interceptSpecificToolResult icfg r tc
              state).1 tc state).1) := by
  refine ⟨?_, ?_, ?_, ?_, ?_, ?_⟩
  · unfold ReAgentBuilder.executeToolCall
    cases hres : ReAgentBuilder.resolvedResult icfg toolMap tc state <;>
      simp [List.countP_append, List.countP_cons,
        StageEvent.isSpecificBeforeIntercept, countP_preEvents_specific,
        countP_invokeEvents_specific]
  · intro r h
    unfold ReAgentBuilder.finalInterceptResult
    rw [h]
  · intro m h
    unfold ReAgentBuilder.finalInterceptResult
    rw [h]
  · intro r h
    unfold ReAgentBuilder.resolvedResult
    rw [h]
  · intro m tool hfir hget
    unfold ReAgentBuilder.resolvedResult
    rw [hfir, hget]
  · intro r hres
    unfold ReAgentBuilder.executeToolCall
    rw [hres]

/-- Registry with a single "calc" tool echoing its arguments. -/
def calcToolMap : ToolMap :=
  [("calc", ⟨"calc", fun args => .ok ("ran:" ++ args)⟩)]

/-- A global before-interceptor that rewrites the call's arguments, plus a
tool-specific before-interceptor for "calc" that rewrites them again. -/
def rewritingCfg : InterceptorConfig :=
  ⟨true, none,
   some ⟨some (fun tc _ => .ok (.normal { tc with args := "rewritten" })),
         none⟩,
   some [("calc",
     ⟨some (fun tc _ => .ok (.normal { tc with args := tc.args ++ "+spec" })),
      none⟩)]⟩

/-- A global before-interceptor that short-circuits with a cached result. -/
def shortCircuitCfg : InterceptorConfig :=
  ⟨true, none,
   some ⟨some (fun _ _ => .ok (.shortCircuit "cached")), none⟩,
   none⟩

theorem c1_per_call_pipeline_witness :
    (ReAgentBuilder.executeToolCall shortCircuitCfg calcToolMap ⟨[]⟩ 0
        calcCall).2.countP StageEvent.isSpecificBeforeIntercept = 0 ∧
    (ReAgentBuilder.executeToolCall rewritingCfg calcToolMap ⟨[]⟩ 0
        calcCall).2.countP StageEvent.isSpecificBeforeIntercept = 1 ∧
    ReAgentBuilder.resolvedResult shortCircuitCfg calcToolMap calcCall ⟨[]⟩ =
      .ok "cached" ∧
    ReAgentBuilder.resolvedResult rewritingCfg calcToolMap calcCall ⟨[]⟩ =
      .ok "ran:rewritten+spec" ∧
    (ReAgentBuilder.executeToolCall rewritingCfg calcToolMap ⟨[]⟩ 0
        calcCall).1.content = "ran:rewritten+spec" := by
  refine ⟨?_, ?_, ?_, ?_, ?_⟩
  · rw [(c1_per_call_pipeline shortCircuitCfg calcToolMap ⟨[]⟩ 0 calcCall).1]
    rfl
  · rw [(c1_per_call_pipeline rewritingCfg calcToolMap ⟨[]⟩ 0 calcCall).1]
    rfl
  · exact (c1_per_call_pipeline shortCircuitCfg calcToolMap ⟨[]⟩ 0
      calcCall).2.2.2.1 "cached" rfl
  · exact (c1_per_call_pipeline rewritingCfg calcToolMap ⟨[]⟩ 0
      calcCall).2.2.2.2.1 { calcCall with args := "rewritten+spec" }
      ⟨"calc", fun args => .ok ("ran:" ++ args)⟩ rfl rfl
  · rw [(c1_per_call_pipeline rewritingCfg calcToolMap ⟨[]⟩ 0
      calcCall).2.2.2.2.2 "ran:rewritten+spec" rfl]
    rfl

/-- C9: every breakpoint stage of the per-call pipeline (global-before,
tool-specific-before, tool-specific-after, global-after) is invoked with
the original model-issued tool call, even when a before-interceptor
rewrote the call; only the tool-specific-before interceptor (which gets
the global stage's modified input) and the real tool invocation (which
gets the final modified arguments) receive interceptor-modified input, and
the after-interceptors are likewise keyed by the original call. -/
theorem c9_breakpoints_original_input (icfg : InterceptorConfig)
    (toolMap : ToolMap) (state : AgentStateType) (index : Nat)
    (tc : ToolCall) :
    (∀ m, (InterceptorManager.interceptBeforeToolCall icfg tc state).1 =
        .normal m →
      ReAgentBuilder.preEvents icfg tc state =
        [.globalBeforeInterceptorCall tc, .globalBeforeBreakpointCall tc,
         .specificBeforeInterceptorCall m,
         .specificBeforeBreakpointCall tc]) ∧
    (∀ r, (InterceptorManager.interceptBeforeToolCall icfg tc state).1 =
        .shortCircuit r →
      ReAgentBuilder.preEvents icfg tc state =
        [.globalBeforeInterceptorCall tc, .globalBeforeBreakpointCall tc,
         .specificBeforeBreakpointCall tc]) ∧
    (∀ m tool, ReAgentBuilder.finalInterceptResult icfg tc state =
        .normal m →
      mapGet toolMap tc.name = some tool →
      ReAgentBuilder.invokeEvents icfg toolMap tc state =
        [.toolInvocation tc.name m.args]) ∧
    (∀ r, ReAgentBuilder.resolvedResult icfg toolMap tc state = .ok r →
      (ReAgentBuilder.executeToolCall icfg toolMap state index tc).2 =
        ReAgentBuilder.preEvents icfg tc state
          ++ ReAgentBuilder.invokeEvents icfg toolMap tc state
          ++ [.specificAfterInterceptorCall r tc,
              .specificAfterBreakpointCall
                (InterceptorManager.interceptSpecificToolResult icfg r tc
                  state).1 tc,
              .globalAfterInterceptorCall
                (InterceptorManager.interceptSpecificToolResult icfg r tc
                  state).1 tc,
              .globalAfterBreakpointCall
                (InterceptorManager.interceptAfterToolCall icfg
                  (InterceptorManager.interceptSpecificToolResult icfg r tc
                    state).1 tc state).1 tc]) ∧
    (∀ e, ReAgentBuilder.resolvedResult icfg toolMap tc state = .error e →
      (ReAgentBuilder.executeToolCall icfg toolMap state index tc).2 =
        ReAgentBuilder.preEvents icfg tc state
          ++ ReAgentBuilder.invokeEvents icfg toolMap tc state) := by
  refine ⟨?_, ?_, ?_, ?_, ?_⟩
  · intro m h
    unfold ReAgentBuilder.preEvents
    rw [h]
    rfl
  · intro r h
    unfold ReAgentBuilder.preEvents
    rw [h]
    rfl
  · intro m tool hfir hget
    unfold ReAgentBuilder.invokeEvents
    rw [hfir, hget]
  · intro r hres
    unfold ReAgentBuilder.executeToolCall
    rw [hres]
  · intro e hres
    unfold ReAgentBuilder.executeToolCall
    rw [hres]

theorem c9_breakpoints_original_input_witness :
    ReAgentBuilder.preEvents rewritingCfg calcCall ⟨[]⟩ =
      [.globalBeforeInterceptorCall calcCall,
       .globalBeforeBreakpointCall calcCall,
       .specificBeforeInterceptorCall { calcCall with args := "rewritten" },
       .specificBeforeBreakpointCall calcCall] ∧
    ReAgentBuilder.invokeEvents rewritingCfg calcToolMap calcCall ⟨[]⟩ =
      [.toolInvocation "calc" "rewritten+spec"] ∧
    (ReAgentBuilder.executeToolCall rewritingCfg calcToolMap ⟨[]⟩ 0
        calcCall).2 =
      ReAgentBuilder.preEvents rewritingCfg calcCall ⟨[]⟩
        ++ ReAgentBuilder.invokeEvents rewritingCfg calcToolMap calcCall ⟨[]⟩
        ++ [.specificAfterInterceptorCall "ran:rewritten+spec" calcCall,
            .specificAfterBreakpointCall "ran:rewritten+spec" calcCall,
            .globalAfterInterceptorCall "ran:rewritten+spec" calcCall,
            .globalAfterBreakpointCall "ran:rewritten+spec" calcCall] := by
  refine ⟨?_, ?_, ?_⟩
  · exact (c9_breakpoints_original_input rewritingCfg calcToolMap ⟨[]⟩ 0
      calcCall).1 { calcCall with args := "rewritten" } rfl
  · exact (c9_breakpoints_original_input rewritingCfg calcToolMap ⟨[]⟩ 0
      calcCall).2.2.1 { calcCall with args := "rewritten+spec" }
      ⟨"calc", fun args => .ok ("ran:" ++ args)⟩ rfl rfl
  · exact (c9_breakpoints_original_input rewritingCfg calcToolMap ⟨[]⟩ 0
      calcCall).2.2.2.1 "ran:rewritten+spec" rfl

theorem executeTools_messages_decompose (icfg : InterceptorConfig)
    (toolMap : ToolMap) (state : AgentStateType)
    (toolCalls : List ToolCall) :
    (ReAgentBuilder.executeTools icfg toolMap state toolCalls).messages =
      ReAgentBuilder.unknownMessages toolMap toolCalls
        ++ ReAgentBuilder.pipelineResults icfg toolMap state toolCalls := by
  unfold ReAgentBuilder.executeTools
  by_cases hempty : toolCalls.isEmpty
  · rw [if_pos hempty]
    have h0 : toolCalls = [] := List.isEmpty_iff.mp hempty
    subst h0
    rfl
  · rw [if_neg hempty]
    by_cases hval : (ReAgentBuilder.validToolCalls toolMap toolCalls).isEmpty
    · rw [if_pos hval]
      have h0 : ReAgentBuilder.validToolCalls toolMap toolCalls = [] :=
        List.isEmpty_iff.mp hval
      unfold ReAgentBuilder.pipelineResults
      rw [h0]
      simp
    · rw [if_neg hval]

theorem executeTools_traces_valid (icfg : InterceptorConfig)
    (toolMap : ToolMap) (state : AgentStateType) (toolCalls : List ToolCall)
    (tr : ToolCall × List StageEvent)
    (htr : tr ∈ (ReAgentBuilder.executeTools icfg toolMap state
      toolCalls).traces) :
    mapHas toolMap tr.1.name = true := by
  unfold ReAgentBuilder.executeTools at htr
  by_cases hempty : toolCalls.isEmpty
  · rw [if_pos hempty] at htr
    simp at htr
  · rw [if_neg hempty] at htr
    by_cases hval : (ReAgentBuilder.validToolCalls toolMap toolCalls).isEmpty
    · rw [if_pos hval] at htr
      simp at htr
    · rw [if_neg hval] at htr
      simp only [List.mem_map] at htr
      obtain ⟨p, hp, hpe⟩ := htr
      have hmem : p.2 ∈ ReAgentBuilder.validToolCalls toolMap toolCalls :=
        List.getElem?_mem (List.mem_enum_iff_getElem?.mp hp)
      unfold ReAgentBuilder.validToolCalls at hmem
      have := (List.mem_filter.mp hmem).2
      rw [← hpe]
      exact this

/-- C2 (amended): a tool call whose name is absent from the registry
yields exactly one error result for that call, of the fixed form
`Unknown tool: <name>` (capital U, as produced by the code, not
`unknown tool: <name>`), and no hook pipeline or real tool runs for it:
the batch result is exactly one unknown-call message per unknown call
followed by the settled messages of the known calls, and every recorded
pipeline trace belongs to a call whose name is in the registry. -/
theorem c2_unknown_tool_handling (icfg : InterceptorConfig)
    (toolMap : ToolMap) (state : AgentStateType)
    (toolCalls : List ToolCall) :
    ((ReAgentBuilder.executeTools icfg toolMap state toolCalls).messages =
      ReAgentBuilder.unknownMessages toolMap toolCalls
        ++ ReAgentBuilder.pipelineResults icfg toolMap state toolCalls) ∧
    ((ReAgentBuilder.unknownMessages toolMap toolCalls).length =
      (ReAgentBuilder.invalidToolCalls toolMap toolCalls).length) ∧
    ((ReAgentBuilder.executeTools icfg toolMap state
        toolCalls).messages.length = toolCalls.length) ∧
    (∀ p ∈ (ReAgentBuilder.invalidToolCalls toolMap toolCalls).enum,
      ReAgentBuilder.unknownToolMessage p.1 p.2 ∈
          (ReAgentBuilder.executeTools icfg toolMap state
            toolCalls).messages ∧
        (ReAgentBuilder.unknownToolMessage p.1 p.2).content =
          "Unknown tool: " ++ p.2.name) ∧
    (∀ tc ∈ ReAgentBuilder.invalidToolCalls toolMap toolCalls,
      ∀ tr ∈ (ReAgentBuilder.executeTools icfg toolMap state
          toolCalls).traces, tr.1 ≠ tc) := by
  refine ⟨executeTools_messages_decompose icfg toolMap state toolCalls,
    by simp [ReAgentBuilder.unknownMessages], ?_, ?_, ?_⟩
  · rw [executeTools_messages_decompose]
    simp only [List.length_append, ReAgentBuilder.unknownMessages,
      ReAgentBuilder.pipelineResults, List.length_map, List.enum_length]
    unfold ReAgentBuilder.invalidToolCalls ReAgentBuilder.validToolCalls
    rw [Nat.add_comm]
    exact (List.length_eq_length_filter_add
      (fun tc : ToolCall => mapHas toolMap tc.name)).symm
  · intro p hp
    refine ⟨?_, rfl⟩
    rw [executeTools_messages_decompose]
    refine List.mem_append_left _ ?_
    unfold ReAgentBuilder.unknownMessages
    exact List.mem_map_of_mem _ hp
  · intro tc htc tr htr
    have hhas := executeTools_traces_valid icfg toolMap state toolCalls tr htr
    unfold ReAgentBuilder.invalidToolCalls at htc
    have hnot := (List.mem_filter.mp htc).2
    intro heq
    rw [heq] at hhas
    simp [hhas] at hnot

/-- A call to a tool that is not registered. -/
def ghostCall : ToolCall := ⟨some "g1", "ghost", "{}"⟩

/-- A disabled interceptor configuration. -/
def emptyCfg : InterceptorConfig := ⟨false, none, none, none⟩

/-- C2 counterexample: the unknown-call error result produced by the code
reads `Unknown tool: ghost` (capital U), which is not the claimed string
`unknown tool: ghost`. -/
theorem c2_unknown_tool_case_counterexample :
    (ReAgentBuilder.executeTools emptyCfg [] ⟨[]⟩ [ghostCall]).messages =
      [⟨"Unknown tool: ghost", "g1"⟩] ∧
    ¬((ReAgentBuilder.executeTools emptyCfg [] ⟨[]⟩
        [ghostCall]).messages.map ToolMessage.content =
      ["unknown tool: ghost"]) := by
  exact ⟨rfl, by decide⟩

theorem c2_unknown_tool_handling_witness :
    (ReAgentBuilder.executeTools emptyCfg calcToolMap ⟨[]⟩
        [ghostCall, calcCall]).messages.length = 2 ∧
    ReAgentBuilder.unknownToolMessage 0 ghostCall ∈
      (ReAgentBuilder.executeTools emptyCfg calcToolMap ⟨[]⟩
        [ghostCall, calcCall]).messages ∧
    (ReAgentBuilder.unknownToolMessage 0 ghostCall).content =
      "Unknown tool: ghost" := by
  refine ⟨?_, ?_, ?_⟩
  · exact (c2_unknown_tool_handling emptyCfg calcToolMap ⟨[]⟩
      [ghostCall, calcCall]).2.2.1
  · exact ((c2_unknown_tool_handling emptyCfg calcToolMap ⟨[]⟩
      [ghostCall, calcCall]).2.2.2.1 (0, ghostCall) (by decide)).1
  · exact ((c2_unknown_tool_handling emptyCfg calcToolMap ⟨[]⟩
      [ghostCall, calcCall]).2.2.2.1 (0, ghostCall) (by decide)).2

theorem validToolCalls_ne_nil_of_mem (toolMap : ToolMap)
    (toolCalls : List ToolCall)
    (h : ¬(ReAgentBuilder.validToolCalls toolMap toolCalls = [])) :
    toolCalls.isEmpty = false := by
  cases hc : toolCalls with
  | nil =>
    exfalso
    apply h
    rw [hc]
    rfl
  | cons a l => rfl

/-- C7 (amended): the integer test of the engine
(`errorMessages.length > Math.floor(totalTools / 2)`) holds exactly when
the failed fraction exceeds one half (`2k > n`); when the batch contains
at least one known call, the systemic-problem warning is set exactly when
twice the number of error results (unknown-tool messages plus failed
settlements) exceeds the batch size; when every call of a non-empty batch
is unknown, the engine returns the unknown-call messages early and the
warning is never evaluated, hence not logged, even though the failed
fraction is 1.  The warning is a boolean side output only (non-fatal). -/
theorem c7_systemic_warning_threshold (icfg : InterceptorConfig)
    (toolMap : ToolMap) (state : AgentStateType)
    (toolCalls : List ToolCall) :
    (∀ errorCount totalTools : Nat,
      ReAgentBuilder.systemicWarningCheck errorCount totalTools = true ↔
        2 * errorCount > totalTools) ∧
    (ReAgentBuilder.validToolCalls toolMap toolCalls = [] →
      (ReAgentBuilder.executeTools icfg toolMap state
        toolCalls).systemicWarning = false) ∧
    (¬(ReAgentBuilder.validToolCalls toolMap toolCalls = []) →
      ((ReAgentBuilder.executeTools icfg toolMap state
          toolCalls).systemicWarning = true ↔
        2 * (ReAgentBuilder.errorMessagesOf icfg toolMap state
          toolCalls).length > toolCalls.length)) := by
  refine ⟨?_, ?_, ?_⟩
  · intro errorCount totalTools
    unfold ReAgentBuilder.systemicWarningCheck
    simp only [decide_eq_true_eq]
    omega
  · intro hval
    unfold ReAgentBuilder.executeTools
    by_cases hempty : toolCalls.isEmpty
    · rw [if_pos hempty]
    · rw [if_neg hempty, if_pos (by rw [hval]; rfl)]
  · intro hval
    unfold ReAgentBuilder.executeTools
    have hne : toolCalls.isEmpty = false :=
      validToolCalls_ne_nil_of_mem toolMap toolCalls hval
    rw [if_neg (by rw [hne]; simp)]
    rw [if_neg (fun hc => hval (List.isEmpty_iff.mp hc))]
    unfold ReAgentBuilder.systemicWarningCheck
    simp only [decide_eq_true_eq]
    omega

/-- C7 counterexample: a batch consisting of one unknown call.  All of it
(100% > 50%) fails — the single result message is an unknown-tool error —
yet the engine returns early on the all-unknown path and the
systemic-problem warning is not set, so the claimed "warning iff failed
fraction exceeds one half" is false on this input. -/
theorem c7_all_unknown_no_warning_counterexample :
    (ReAgentBuilder.executeTools emptyCfg [] ⟨[]⟩
        [ghostCall]).messages.length = 1 ∧
    ((ReAgentBuilder.executeTools emptyCfg [] ⟨[]⟩
        [ghostCall]).messages.countP
      (fun msg => strStartsWith msg.content "Unknown tool:")) = 1 ∧
    (ReAgentBuilder.executeTools emptyCfg [] ⟨[]⟩
        [ghostCall]).systemicWarning = false ∧
    ¬(((ReAgentBuilder.executeTools emptyCfg [] ⟨[]⟩
        [ghostCall]).systemicWarning = true) ↔ 2 * 1 > 1) := by
  refine ⟨rfl, by decide, rfl, by decide⟩

theorem c7_systemic_warning_threshold_witness :
    ReAgentBuilder.systemicWarningCheck 2 3 = true ∧
    ReAgentBuilder.systemicWarningCheck 1 2 = false ∧
    (ReAgentBuilder.executeTools emptyCfg calcToolMap ⟨[]⟩
        [ghostCall]).systemicWarning = false ∧
    ((ReAgentBuilder.executeTools emptyCfg calcToolMap ⟨[]⟩
        [ghostCall, calcCall]).systemicWarning = false) := by
  refine ⟨?_, ?_, ?_, ?_⟩
  · exact ((c7_systemic_warning_threshold emptyCfg calcToolMap ⟨[]⟩ []).1
      2 3).mpr (by omega)
  · have h := ((c7_systemic_warning_threshold emptyCfg calcToolMap ⟨[]⟩
      []).1 1 2)
    cases hc : ReAgentBuilder.systemicWarningCheck 1 2 with
    | false => rfl
    | true => exact absurd (h.mp hc) (by omega)
  · exact (c7_systemic_warning_threshold emptyCfg calcToolMap ⟨[]⟩
      [ghostCall]).2.1 (by decide)
  · have h := (c7_systemic_warning_threshold emptyCfg calcToolMap ⟨[]⟩
      [ghostCall, calcCall]).2.2 (by decide)
    cases hc : (ReAgentBuilder.executeTools emptyCfg calcToolMap ⟨[]⟩
        [ghostCall, calcCall]).systemicWarning with
    | false => rfl
    | true =>
      exfalso
      have h2 := h.mp hc
      revert h2
      decide

/-! ## ReAgentBuilder.addTool (registry mutation) -/

/-- Observable outcome of one `addTool` call: the registry afterwards, the
thrown error if any, and whether the overwrite warning was logged. -/
structure AddToolResult where
  toolMap : ToolMap
  thrown : Option ReAgentError
  warnedOverwrite : Bool

/-- `ReAgentBuilder.addTool`: reject a missing tool or a tool with a falsy
(empty) name with a Validation/High error before touching the registry;
otherwise warn if the name is already mapped and overwrite it. -/
def ReAgentBuilder.addTool (toolMap : ToolMap) (t : Option StructuredTool) :
    AddToolResult :=
  match t with
  | none =>
    ⟨toolMap,
     some (ErrorHandler.createError "工具不能为空且必须有名称" .VALIDATION
       .HIGH [("component", "ReAgentBuilder"), ("operation", "addTool")]
       none false),
     false⟩
  | some tool =>
    if tool.name = "" then
      ⟨toolMap,
       some (ErrorHandler.createError "工具不能为空且必须有名称" .VALIDATION
         .HIGH [("component", "ReAgentBuilder"), ("operation", "addTool")]
         none false),
       false⟩
    else
      ⟨mapSet toolMap tool.name tool, none, mapHas toolMap tool.name⟩

/-- C10: `addTool` throws a Validation-kind error on a null tool or a tool
without a name, leaving the registry untouched; for a named tool it maps
the name to the tool — overwriting an existing entry silently (no throw,
only a logged warning) — and leaves every other name's binding
unchanged. -/
theorem c10_addTool_validation_and_overwrite (toolMap : ToolMap) :
    ((ReAgentBuilder.addTool toolMap none).toolMap = toolMap ∧
      ∃ e, (ReAgentBuilder.addTool toolMap none).thrown = some e ∧
        e.type = .VALIDATION) ∧
    (∀ t : StructuredTool, t.name = "" →
      (ReAgentBuilder.addTool toolMap (some t)).toolMap = toolMap ∧
      ∃ e, (ReAgentBuilder.addTool toolMap (some t)).thrown = some e ∧
        e.type = .VALIDATION) ∧
    (∀ t : StructuredTool, ¬(t.name = "") →
      (ReAgentBuilder.addTool toolMap (some t)).thrown = none ∧
      mapGet (ReAgentBuilder.addTool toolMap (some t)).toolMap t.name =
        some t ∧
      (ReAgentBuilder.addTool toolMap (some t)).warnedOverwrite =
        mapHas toolMap t.name ∧
      (∀ k, ¬(k = t.name) →
        mapGet (ReAgentBuilder.addTool toolMap (some t)).toolMap k =
          mapGet toolMap k)) := by
  refine ⟨⟨rfl, _, rfl, rfl⟩, ?_, ?_⟩
  · intro t ht
    simp only [ReAgentBuilder.addTool]
    rw [if_pos ht]
    exact ⟨rfl, _, rfl, rfl⟩
  · intro t ht
    simp only [ReAgentBuilder.addTool]
    rw [if_neg ht]
    exact ⟨rfl, mapGet_mapSet_self toolMap t.name t, rfl,
      fun k hk => mapGet_mapSet_ne toolMap t.name k t hk⟩

/-- The calculator tool used as the addTool witness. -/
def calcTool : StructuredTool := ⟨"calc", fun args => .ok ("ran:" ++ args)⟩

theorem c10_addTool_validation_and_overwrite_witness :
    (ReAgentBuilder.addTool [] (some calcTool)).thrown = none ∧
    mapGet (ReAgentBuilder.addTool [] (some calcTool)).toolMap "calc" =
      some calcTool ∧
    (ReAgentBuilder.addTool [] (some calcTool)).warnedOverwrite = false ∧
    (ReAgentBuilder.addTool calcToolMap (some calcTool)).warnedOverwrite =
      true ∧
    (ReAgentBuilder.addTool calcToolMap none).toolMap = calcToolMap := by
  have h1 := (c10_addTool_validation_and_overwrite []).2.2 calcTool
    (by decide)
  have h2 := (c10_addTool_validation_and_overwrite calcToolMap).2.2 calcTool
    (by decide)
  have h3 := (c10_addTool_validation_and_overwrite calcToolMap).1
  exact ⟨h1.1, h1.2.1, h1.2.2.1, h2.2.2.1, h3.1⟩
